import Mathlib

/-!
# Verification of the Data Weaver core pipeline

A shallow embedding, in Lean 4, of the four core stages of the Data Weaver
repository — tabular parsing (`csvParser.js`), date normalization
(`dateNormalizer.js`), the order/weather merge (`dataMerger.js`) and the
metrics engine (`metricsCalculator.js`) — together with theorems settling the
specification claims about them.

Modelling conventions, used throughout:

* JavaScript numbers are modelled exactly by `JsNumber`: a finite rational,
  `NaN`, `+Infinity` or `-Infinity`.  The claims under study concern
  finite/`NaN`/null distinctions, sign tests and equalities that are exact in
  the source, so rationals stand in for IEEE doubles; floating-point rounding
  and overflow are not modelled.
* A JavaScript value sitting in a numeric record field is a `JsVal`: a number,
  `null` or `undefined`.  `Number(v)` coercion (`JsVal.toNumber`) maps `null`
  to `0` and `undefined` to `NaN`, exactly as in JavaScript.
* Strings are `String`/`List Char`; the regular expressions of the source are
  embedded as deterministic character-list scanners equivalent to the anchored
  regexes on the inputs considered.
* In the merge and metrics stages a `date_iso` key is represented by an
  integer day number (day 0 = 1970-01-01, a Thursday).  For the canonical
  `YYYY-MM-DD` strings these stages receive, JavaScript's lexicographic string
  sort agrees with the numeric order of day numbers and `addDays` is integer
  addition, so this representation is exact.
-/

/-! ## JavaScript numbers and values -/

/-- A JavaScript number: finite (exact rational), `NaN`, or a signed infinity. -/
inductive JsNumber where
  | fin (q : ℚ)
  | nan
  | inf
  | ninf
deriving DecidableEq, Repr

/-- `Number.isFinite` on a number. -/
def JsNumber.isFinite : JsNumber → Bool
  | .fin _ => true
  | _ => false

/-- JavaScript `+` on numbers (`NaN` is absorbing; `Infinity + -Infinity = NaN`). -/
def JsNumber.add : JsNumber → JsNumber → JsNumber
  | .fin a, .fin b => .fin (a + b)
  | .nan, _ => .nan
  | _, .nan => .nan
  | .inf, .ninf => .nan
  | .ninf, .inf => .nan
  | .inf, _ => .inf
  | _, .inf => .inf
  | .ninf, _ => .ninf
  | _, .ninf => .ninf

/-- JavaScript unary minus on numbers. -/
def JsNumber.neg : JsNumber → JsNumber
  | .fin a => .fin (-a)
  | .nan => .nan
  | .inf => .ninf
  | .ninf => .inf

/-- JavaScript `-` on numbers. -/
def JsNumber.sub (a b : JsNumber) : JsNumber := a.add b.neg

/-- JavaScript division of a number by a positive integer constant. -/
def JsNumber.divNat (a : JsNumber) (w : ℕ) : JsNumber :=
  match a with
  | .fin q => .fin (q / (w : ℚ))
  | .nan => .nan
  | .inf => .inf
  | .ninf => .ninf

/-- JavaScript `>` on numbers (`NaN` compares false against everything). -/
def JsNumber.gtB : JsNumber → JsNumber → Bool
  | .nan, _ => false
  | _, .nan => false
  | .fin a, .fin b => decide (b < a)
  | .inf, .inf => false
  | .inf, _ => true
  | _, .inf => false
  | .ninf, _ => false
  | .fin _, .ninf => true

/-- JavaScript `<` on numbers. -/
def JsNumber.ltB (a b : JsNumber) : Bool := JsNumber.gtB b a

/-- A JavaScript value in a numeric field: a number, `null` or `undefined`. -/
inductive JsVal where
  | num (q : ℚ)
  | nan
  | inf
  | ninf
  | null
  | undef
deriving DecidableEq, Repr

/-- `Number(v)` coercion: `Number(null) = 0`, `Number(undefined) = NaN`. -/
def JsVal.toNumber : JsVal → JsNumber
  | .num q => .fin q
  | .nan => .nan
  | .inf => .inf
  | .ninf => .ninf
  | .null => .fin 0
  | .undef => .nan

/-- `Number.isFinite(v)` — no coercion, only an actual finite number passes. -/
def JsVal.isFiniteV : JsVal → Bool
  | .num _ => true
  | _ => false

/-- The rational carried by a finite numeric value, if any. -/
def JsVal.finPart : JsVal → Option ℚ
  | .num q => some q
  | _ => none

/-- JavaScript `>` between two field values (relational comparison coerces via
`ToNumber`, so `null` compares as `0`). -/
def JsVal.gtV (a b : JsVal) : Bool := JsNumber.gtB a.toNumber b.toNumber

/-- JavaScript `Math.round`: round half toward positive infinity. -/
def jsRound (q : ℚ) : ℤ := Int.floor (q + 1 / 2)

/-- `Math.round(q * 100) / 100`. -/
def round2 (q : ℚ) : ℚ := (jsRound (q * 100) : ℚ) / 100

/-- `Math.round(q * 10) / 10`. -/
def round1 (q : ℚ) : ℚ := (jsRound (q * 10) : ℚ) / 10

/-- `Math.round(q * 1000) / 1000`. -/
def round3 (q : ℚ) : ℚ := (jsRound (q * 1000) : ℚ) / 1000

/-! ## Characters and string scanning

The whitespace set below is the ASCII part of JavaScript's `\s` / `trim`
class; the inputs of this development contain no exotic Unicode whitespace. -/

/-- JavaScript whitespace (ASCII subset: tab, LF, VT, FF, CR, space). -/
def isJsWs (c : Char) : Bool := c = ' ' ∨ (9 ≤ c.toNat ∧ c.toNat ≤ 13)

/-- The numeric value of a decimal digit character. -/
def digitVal (c : Char) : ℕ := c.toNat - 48

/-- The decimal digit character for `n ≤ 9`. -/
def digitChar (n : ℕ) : Char := Char.ofNat (48 + n)

/-- The natural number denoted by a list of decimal digit characters. -/
def natOfDigits (cs : List Char) : ℕ := cs.foldl (fun n c => 10 * n + digitVal c) 0

/-- Leading-whitespace strip (`trimStart`). -/
def jsTrimStart (cs : List Char) : List Char := cs.dropWhile isJsWs

/-- Trailing-whitespace strip (`trimEnd`). -/
def jsTrimEnd (cs : List Char) : List Char := (cs.reverse.dropWhile isJsWs).reverse

/-- JavaScript `String.prototype.trim`. -/
def jsTrim (cs : List Char) : List Char := jsTrimEnd (jsTrimStart cs)

/-- `s.replace(/,/g, '')`: delete every comma. -/
def stripCommas (cs : List Char) : List Char := cs.filter (fun c => c ≠ ',')

/-! ## Stable sorting

`Array.prototype.sort` is required by the language specification to be
stable, and under a total preorder comparator a stable sort is unique; the
structurally recursive insertion sort below is therefore extensionally the
source's sort for every comparator the source uses. -/

/-- Insert `x` before the first element `y` with `le x y` (stable insertion:
an earlier element goes in front of later equal ones). -/
def insertLe {α : Type} (le : α → α → Bool) (x : α) : List α → List α
  | [] => [x]
  | y :: ys => if le x y then x :: y :: ys else y :: insertLe le x ys

/-- Stable sort by the comparator `le`. -/
def jsSort {α : Type} (le : α → α → Bool) : List α → List α
  | [] => []
  | x :: xs => insertLe le x (jsSort le xs)

/-- `DecidableEq` for stage results. -/
instance {ε α : Type} [DecidableEq ε] [DecidableEq α] : DecidableEq (Except ε α) := fun a b =>
  match a, b with
  | .error e1, .error e2 =>
    if h : e1 = e2 then .isTrue (by rw [h]) else .isFalse (by intro hc; cases hc; exact h rfl)
  | .ok v1, .ok v2 =>
    if h : v1 = v2 then .isTrue (by rw [h]) else .isFalse (by intro hc; cases hc; exact h rfl)
  | .error _, .ok _ => .isFalse (by intro hc; cases hc)
  | .ok _, .error _ => .isFalse (by intro hc; cases hc)

/-! ## `Number(string)` — the `ToNumber` string grammar

Exact-rational model of JavaScript's `ToNumber` applied to a string: optional
whitespace, then an optional signed decimal literal (with fraction and
exponent) or `Infinity`, or an unsigned hex/octal/binary literal; anything
else is `NaN`; the empty (or all-whitespace) string is `0`.  Values are exact
rationals (double rounding and overflow to `Infinity` are not modelled). -/

/-- `10 ^ e` for an integer exponent. -/
def expQ (e : ℤ) : ℚ :=
  if 0 ≤ e then ((10 : ℚ) ^ e.toNat) else 1 / ((10 : ℚ) ^ (-e).toNat)

/-- Hex digit value. -/
def hexDigitVal (c : Char) : Option ℕ :=
  if c.isDigit then some (digitVal c)
  else if 'a' ≤ c ∧ c ≤ 'f' then some (c.toNat - 87)
  else if 'A' ≤ c ∧ c ≤ 'F' then some (c.toNat - 55)
  else none

/-- Octal digit value. -/
def octDigitVal (c : Char) : Option ℕ :=
  if '0' ≤ c ∧ c ≤ '7' then some (digitVal c) else none

/-- Binary digit value. -/
def binDigitVal (c : Char) : Option ℕ :=
  if c = '0' ∨ c = '1' then some (digitVal c) else none

/-- Value of a non-empty digit string in the given base. -/
def radixVal (base : ℕ) (valOf : Char → Option ℕ) (cs : List Char) : Option ℕ :=
  if cs.isEmpty then none
  else
    cs.foldl
      (fun acc c =>
        match acc, valOf c with
        | some n, some v => some (base * n + v)
        | _, _ => none)
      (some 0)

/-- The tail of a decimal literal: digits, optional fraction, optional
exponent, to the end of the string. -/
def parseDecimalTail (cs : List Char) : Option ℚ :=
  let ds := cs.takeWhile Char.isDigit
  let r1 := cs.dropWhile Char.isDigit
  let fsr2 : List Char × List Char :=
    match r1 with
    | '.' :: rest => (rest.takeWhile Char.isDigit, rest.dropWhile Char.isDigit)
    | _ => ([], r1)
  let fs := fsr2.1
  let r2 := fsr2.2
  if ds.isEmpty ∧ fs.isEmpty then none
  else
    let base : ℚ := (natOfDigits ds : ℚ) + (natOfDigits fs : ℚ) / ((10 : ℚ) ^ fs.length)
    match r2 with
    | [] => some base
    | e :: rest =>
      if e = 'e' ∨ e = 'E' then
        let sgnRest : ℤ × List Char :=
          match rest with
          | '+' :: t => (1, t)
          | '-' :: t => (-1, t)
          | t => (1, t)
        let es := sgnRest.2.takeWhile Char.isDigit
        let r3 := sgnRest.2.dropWhile Char.isDigit
        if es.isEmpty ∨ ¬r3.isEmpty then none
        else some (base * expQ (sgnRest.1 * (natOfDigits es : ℤ)))
      else none

/-- A signed decimal literal or `Infinity`, to the end of the string. -/
def parseSignedDec (sgn : ℚ) (isNeg : Bool) (cs : List Char) : JsNumber :=
  if cs = ('I' :: 'n' :: 'f' :: 'i' :: 'n' :: 'i' :: 't' :: 'y' :: []) then
    if isNeg then .ninf else .inf
  else
    match parseDecimalTail cs with
    | some q => .fin (sgn * q)
    | none => .nan

/-- `Number(s)` for a string `s`. -/
def jsStringToNumber (cs : List Char) : JsNumber :=
  match jsTrim cs with
  | [] => .fin 0
  | '0' :: 'x' :: rest =>
    match radixVal 16 hexDigitVal rest with
    | some n => .fin (n : ℚ)
    | none => .nan
  | '0' :: 'X' :: rest =>
    match radixVal 16 hexDigitVal rest with
    | some n => .fin (n : ℚ)
    | none => .nan
  | '0' :: 'o' :: rest =>
    match radixVal 8 octDigitVal rest with
    | some n => .fin (n : ℚ)
    | none => .nan
  | '0' :: 'O' :: rest =>
    match radixVal 8 octDigitVal rest with
    | some n => .fin (n : ℚ)
    | none => .nan
  | '0' :: 'b' :: rest =>
    match radixVal 2 binDigitVal rest with
    | some n => .fin (n : ℚ)
    | none => .nan
  | '0' :: 'B' :: rest =>
    match radixVal 2 binDigitVal rest with
    | some n => .fin (n : ℚ)
    | none => .nan
  | '+' :: rest => parseSignedDec 1 false rest
  | '-' :: rest => parseSignedDec (-1) true rest
  | rest => parseSignedDec 1 false rest

/-! ## Error payloads -/

/-- Optional structured context attached to a typed failure
(`details` in `makeError(code, message, details)`). -/
structure ErrDetails where
  rowIndex : Option ℕ := none
  value : Option String := none
  fieldName : Option String := none
  families : List String := []
  detectedHeaders : List String := []
  rowCount : Option ℕ := none
deriving DecidableEq, Repr

/-- The `{code, message, details}` error payload shared by all stages. -/
structure JsError where
  code : String
  message : String
  details : Option ErrDetails := none
deriving DecidableEq, Repr

/-- The `code` of a failed stage result, if the result failed. -/
def errCode {α : Type} (r : Except JsError α) : Option String :=
  match r with
  | .error e => some e.code
  | .ok _ => none

/-! ## `csvParser.js` — numeric coercion

`coerceNumber(value, fieldName, rowIndex)`: `null`/`undefined`/blank → `null`;
otherwise trim, delete every comma, apply `Number`, and accept only a finite
result (`CSV_INVALID_NUMBER` otherwise — the value is never coerced to zero on
failure). -/

/-- `coerceNumber` from `csvParser.js`. -/
def coerceNumber (value : Option String) (fieldName : String) (rowIndex : ℕ) :
    Except JsError (Option ℚ) :=
  match value with
  | none => .ok none
  | some v =>
    let s := jsTrim v.data
    if s.isEmpty then .ok none
    else
      let normalized := stripCommas s
      match jsStringToNumber normalized with
      | .fin q => .ok (some q)
      | _ =>
        .error
          { code := "CSV_INVALID_NUMBER",
            message :=
              "Invalid number for " ++ fieldName ++ " at row " ++ toString (rowIndex + 1) ++ ".",
            details :=
              some
                { fieldName := some fieldName, rowIndex := some rowIndex,
                  value := some (String.mk s) } }

/-! ## `csvParser.js` — text to canonical rows -/

/-- Strip a leading byte-order mark. -/
def stripBom (cs : List Char) : List Char :=
  match cs with
  | c :: rest => if c.toNat = 0xfeff then rest else c :: rest
  | [] => []

/-- `.replace(/\r\n/g, '\n').replace(/\r/g, '\n')` as one scan. -/
def normalizeNewlines : List Char → List Char
  | [] => []
  | '\r' :: '\n' :: rest => '\n' :: normalizeNewlines rest
  | '\r' :: rest => '\n' :: normalizeNewlines rest
  | c :: rest => c :: normalizeNewlines rest

/-- `String.prototype.split` on a single character (`"a\n" → ["a", ""]`). -/
def splitOnChar (sep : Char) : List Char → List (List Char)
  | [] => [[]]
  | c :: rest =>
    match splitOnChar sep rest with
    | h :: t => if c = sep then [] :: h :: t else (c :: h) :: t
    | [] => if c = sep then [[], []] else [[c]]

/-- The state-machine field splitter of `parseCsvLine` (quote toggling, `""`
escapes inside quotes, delimiter splitting outside quotes). -/
def parseCsvLineGo (delim : Char) : List Char → List Char → Bool → List (List Char)
  | [], cur, _ => [cur.reverse]
  | '"' :: '"' :: rest, cur, true => parseCsvLineGo delim rest ('"' :: cur) true
  | '"' :: rest, cur, true => parseCsvLineGo delim rest cur false
  | '"' :: rest, cur, false => parseCsvLineGo delim rest cur true
  | c :: rest, cur, inQ =>
    if inQ = false ∧ c = delim then cur.reverse :: parseCsvLineGo delim rest [] inQ
    else parseCsvLineGo delim rest (c :: cur) inQ

/-- `parseCsvLine(line, delimiter)` from `csvParser.js`. -/
def parseCsvLine (delim : Char) (line : List Char) : List (List Char) :=
  parseCsvLineGo delim line [] false

/-- Increment the tally of `c` in an insertion-ordered frequency list
(models the `Map` built by `detectDelimiter`). -/
def alistIncr (m : List (ℕ × ℕ)) (c : ℕ) : List (ℕ × ℕ) :=
  if (m.lookup c).isSome then m.map (fun p => if p.1 = c then (p.1, p.2 + 1) else p)
  else m ++ [(c, 1)]

/-- The `(modeCount, modeFreq)` pair of `detectDelimiter`: first-inserted
count with strictly greatest frequency. -/
def modeOfCounts (counts : List ℕ) : ℕ × ℕ :=
  let freq := counts.foldl alistIncr []
  freq.foldl (fun best p => if p.2 > best.2 then p else best) (0, 0)

/-- `detectDelimiter(lines)` from `csvParser.js`: score each candidate by
`modeCount × consistency` over the first ten lines; strict improvement keeps
the earlier candidate on ties. -/
def detectDelimiter (lines : List (List Char)) : Char :=
  let sample := lines.take 10
  let best :=
    [',', ';', '\t'].foldl
      (fun (best : Char × ℚ) delim =>
        let counts := sample.map fun l => (parseCsvLine delim l).length
        let nonTrivialCounts := counts.filter (fun c => 1 < c)
        if nonTrivialCounts.isEmpty then best
        else
          let mode := modeOfCounts nonTrivialCounts
          let score := (mode.1 : ℚ) * ((mode.2 : ℚ) / (sample.length : ℚ))
          if best.2 < score then (delim, score) else best)
      (',', (-1 : ℚ))
  best.1

/-- Replace each maximal run of `p`-characters by a single `rep` (the
`replace(/X+/g, rep)` pattern); the flag tracks "inside a run". -/
def collapseRuns (p : Char → Bool) (rep : Char) : List Char → Bool → List Char
  | [], _ => []
  | c :: rest, inRun =>
    if p c then
      if inRun then collapseRuns p rep rest true
      else rep :: collapseRuns p rep rest true
    else c :: collapseRuns p rep rest false

/-- `normalizeHeaderToken` from `csvParser.js`: trim, lowercase, whitespace
and hyphen runs to `_`, strip other characters, collapse `_` runs. -/
def normalizeHeaderToken (cs : List Char) : List Char :=
  let t1 := (jsTrim cs).map Char.toLower
  let t2 := collapseRuns isJsWs '_' t1 false
  let t3 := collapseRuns (fun c => c = '-') '_' t2 false
  let t4 := t3.filter (fun c => ('a' ≤ c ∧ c ≤ 'z') ∨ ('0' ≤ c ∧ c ≤ '9') ∨ c = '_')
  collapseRuns (fun c => c = '_') '_' t4 false

/-- Set a key in an insertion-ordered association list (models `Map.set`). -/
def alistSetNat (m : List (String × ℕ)) (k : String) (v : ℕ) : List (String × ℕ) :=
  if (m.lookup k).isSome then m.map (fun p => if p.1 = k then (p.1, v) else p)
  else m ++ [(k, v)]

/-- Deduplicate normalized header tokens: repeats get `_2`, `_3`, …
suffixes, deterministic by column order. -/
def dedupHeaders (bases : List String) : List String :=
  (bases.foldl
    (fun (acc : List String × List (String × ℕ)) base =>
      let next := ((acc.2.lookup base).getD 0) + 1
      let name := if next = 1 then base else base ++ "_" ++ toString next
      (acc.1 ++ [name], alistSetNat acc.2 base next))
    ([], [])).1

/-- A raw row object: normalized header token to string-or-null cell. -/
def RawRow : Type := List (String × Option String)

instance : DecidableEq RawRow := by unfold RawRow; infer_instance

/-- `r[key]` on a raw row: `none` for both a missing key and a null cell. -/
def rowGet (r : RawRow) (k : String) : Option String := (List.lookup k r).join

/-- One raw row from positional fields (`fields[c] ?? ''`, trimmed, empty → null). -/
def buildRow (headers : List String) (fields : List (List Char)) : RawRow :=
  (List.range headers.length).map fun c =>
    let key := headers.getD c ""
    let trimmed := jsTrim (fields.getD c [])
    (key, if trimmed.isEmpty then none else some (String.mk trimmed))

/-- The data-row loop of `parseCsvText`: rows plus field-count-mismatch
warnings, with 1-based line indices starting at the first data line. -/
def buildRows (headers : List String) (headerLen : ℕ) (delim : Char) :
    ℕ → List (List Char) → List RawRow × List String
  | _, [] => ([], [])
  | i, line :: rest =>
    let fields := parseCsvLine delim line
    let w :=
      if fields.length ≠ headerLen then
        ["Row " ++ toString (i + 1) ++ " has " ++ toString fields.length ++
          " columns; expected " ++ toString headerLen ++ "."]
      else []
    let r2 := buildRows headers headerLen delim (i + 1) rest
    (buildRow headers fields :: r2.1, w ++ r2.2)

/-- `pickColumn(normalizedHeaders, candidates)`: the first alias present. -/
def pickColumn (normalizedHeaders : List String) (candidates : List String) : Option String :=
  candidates.find? (fun c => normalizedHeaders.contains c)

/-- A canonical orders row (`{...r, date, total_orders}`). -/
structure OrdersCanonRow where
  raw : RawRow
  date : Option String
  total_orders : Option ℚ
deriving DecidableEq

/-- A canonical weather row. -/
structure WeatherCanonRow where
  raw : RawRow
  date : Option String
  temperature_c : Option ℚ
  rainfall_mm : Option ℚ
  humidity_pct : Option ℚ
  rain_duration_minutes : Option ℚ
deriving DecidableEq

/-- A canonical row of either schema. -/
inductive CanonRow where
  | orders (r : OrdersCanonRow)
  | weather (r : WeatherCanonRow)
deriving DecidableEq

/-- The canonical-row loop for the orders schema: coerce the count column, or
infer `total_orders = 1` from `order_id` (warning once, at the first row). -/
def ordersCanonLoop (sourceName : String) (dateCol : Option String)
    (countCol idCol : Option String) :
    ℕ → List RawRow → Except JsError (List CanonRow × List String)
  | _, [] => .ok ([], [])
  | i, r :: rest =>
    let date := match dateCol with | some dc => rowGet r dc | none => none
    let step : Except JsError (Option ℚ × List String) :=
      match countCol with
      | some cc =>
        match coerceNumber (rowGet r cc) "total_orders" i with
        | .error e => .error e
        | .ok v => .ok (v, [])
      | none =>
        match idCol with
        | some _ =>
          .ok (some 1,
            if i = 0 then
              ["No total_orders column found in " ++ sourceName ++
                "; inferring total_orders=1 per row using order_id."]
            else [])
        | none => .ok (none, [])
    match step with
    | .error e => .error e
    | .ok (v, w) =>
      match ordersCanonLoop sourceName dateCol countCol idCol (i + 1) rest with
      | .error e => .error e
      | .ok (rs, ws) => .ok (.orders ⟨r, date, v⟩ :: rs, w ++ ws)

/-- The canonical-row loop for the weather schema: coerce temperature,
rainfall, humidity and duration in order, failing on the first bad number. -/
def weatherCanonLoop (dateCol : Option String) (tempCol rainCol humCol durCol : Option String) :
    ℕ → List RawRow → Except JsError (List CanonRow)
  | _, [] => .ok []
  | i, r :: rest =>
    let date := match dateCol with | some dc => rowGet r dc | none => none
    match coerceNumber (match tempCol with | some c => rowGet r c | none => none) "temperature_c" i with
    | .error e => .error e
    | .ok temp =>
      match coerceNumber (match rainCol with | some c => rowGet r c | none => none) "rainfall_mm" i with
      | .error e => .error e
      | .ok rain =>
        match coerceNumber (match humCol with | some c => rowGet r c | none => none) "humidity_pct" i with
        | .error e => .error e
        | .ok hum =>
          match coerceNumber (match durCol with | some c => rowGet r c | none => none) "rain_duration_minutes" i with
          | .error e => .error e
          | .ok dur =>
            match weatherCanonLoop dateCol tempCol rainCol humCol durCol (i + 1) rest with
            | .error e => .error e
            | .ok rs => .ok (.weather ⟨r, date, temp, rain, hum, dur⟩ :: rs)

/-- The parser's success payload. -/
structure ParseOutput where
  delimiter : Char
  headers : List String
  rows : List CanonRow
  warnings : List String
deriving DecidableEq

/-- Options of `parseCsvText` (`sourceName`, default `"unknown"`). -/
structure CsvOptions where
  sourceName : Option String := none
deriving DecidableEq

/-- `parseCsvText(text, options)` from `csvParser.js`.  The input is
`Option String`; `none` models a non-string argument (the `typeof` guard). -/
def parseCsvText (text : Option String) (options : CsvOptions) : Except JsError ParseOutput :=
  let sourceName := options.sourceName.getD "unknown"
  match text with
  | none => .error { code := "CSV_EMPTY", message := "CSV content is empty." }
  | some t =>
    let cleaned := jsTrim (normalizeNewlines (stripBom t.data))
    if cleaned.isEmpty then .error { code := "CSV_EMPTY", message := "CSV content is empty." }
    else
      let rawLines := (splitOnChar '\n' cleaned).map jsTrimEnd
      let lines := rawLines.filter (fun l => ¬(jsTrim l).isEmpty)
      if lines.length < 2 then
        .error { code := "CSV_EMPTY", message := "CSV must include a header and at least one row." }
      else if lines.length - 1 < 7 then
        .error { code := "CSV_TOO_FEW_ROWS", message := "CSV must have at least 7 data rows.",
                 details := some { rowCount := some (lines.length - 1) } }
      else
        let delimiter := detectDelimiter lines
        let headerFields := (parseCsvLine delimiter (lines.headD [])).map jsTrim
        let normalizedHeaders :=
          dedupHeaders (headerFields.map (fun h => String.mk (normalizeHeaderToken h)))
        let built := buildRows normalizedHeaders headerFields.length delimiter 1 lines.tail
        let rows := built.1
        let rowWarnings := built.2
        if sourceName = "orders" then
          let dateCol := pickColumn normalizedHeaders ["date", "order_placed_at", "order_placed_at_1"]
          let countCol := pickColumn normalizedHeaders ["total_orders", "order_count", "orders", "total"]
          let idCol := pickColumn normalizedHeaders ["order_id"]
          let missing :=
            (if dateCol.isNone then ["date"] else []) ++
              (if countCol.isNone ∧ idCol.isNone then ["total_orders (or order_id to infer counts)"]
               else [])
          if ¬missing.isEmpty then
            .error { code := "MISSING_REQUIRED_COLUMN",
                     message := "Missing required columns for " ++ sourceName ++ ": " ++
                       String.intercalate ", " missing ++ ".",
                     details := some { detectedHeaders := normalizedHeaders } }
          else
            match ordersCanonLoop sourceName dateCol countCol idCol 0 rows with
            | .error e => .error e
            | .ok (canonRows, canonWarnings) =>
              .ok { delimiter := delimiter, headers := normalizedHeaders,
                    rows := canonRows, warnings := rowWarnings ++ canonWarnings }
        else if sourceName = "weather" then
          let dateCol := pickColumn normalizedHeaders ["date"]
          let tempCol := pickColumn normalizedHeaders ["temperature_c", "temperature", "temp"]
          let rainCol := pickColumn normalizedHeaders ["rainfall_mm", "rainfall", "precipitation", "precip"]
          let humCol := pickColumn normalizedHeaders ["humidity_pct", "humidity"]
          let durCol :=
            pickColumn normalizedHeaders
              ["rain_duration_minutes", "rain_duration", "duration_minutes", "duration"]
          let missing :=
            (if dateCol.isNone then ["date"] else []) ++
              (if tempCol.isNone then ["temperature"] else []) ++
                (if rainCol.isNone then ["rainfall"] else [])
          if ¬missing.isEmpty then
            .error { code := "MISSING_REQUIRED_COLUMN",
                     message := "Missing required columns for " ++ sourceName ++ ": " ++
                       String.intercalate ", " missing ++ ".",
                     details := some { detectedHeaders := normalizedHeaders } }
          else
            match weatherCanonLoop dateCol tempCol rainCol humCol durCol 0 rows with
            | .error e => .error e
            | .ok canonRows =>
              .ok { delimiter := delimiter, headers := normalizedHeaders,
                    rows := canonRows, warnings := rowWarnings }
        else
          .error { code := "CSV_UNKNOWN_SCHEMA", message := "Unknown CSV schema: " ++ sourceName ++ "." }

/-! ## `dateNormalizer.js` — calendar model

`isValidYmd(year, month, day)` in the source builds `new Date(year, month-1,
day)` and compares the getters.  That round-trip succeeds exactly when the
month is 1–12 and the day fits the real calendar month — with one JavaScript
quirk: the `Date` constructor maps years 0–99 to 1900+year, so those years
never round-trip.  All call sites pass a `\d{4}` year (0–9999). -/

/-- Gregorian leap year. -/
def isLeapYear (y : ℕ) : Bool := (y % 4 = 0 ∧ y % 100 ≠ 0) ∨ y % 400 = 0

/-- Days in a month of the proleptic Gregorian calendar. -/
def daysInMonth (y m : ℕ) : ℕ :=
  if m = 2 then (if isLeapYear y then 29 else 28)
  else if m = 4 ∨ m = 6 ∨ m = 9 ∨ m = 11 then 30
  else 31

/-- `isValidYmd` from `dateNormalizer.js` (the `new Date` round-trip check,
including the two-digit-year constructor quirk). -/
def isValidYmd (y m d : ℕ) : Bool :=
  100 ≤ y ∧ 1 ≤ m ∧ m ≤ 12 ∧ 1 ≤ d ∧ d ≤ daysInMonth y m

/-- A calendar date as parsed from a value. -/
structure Ymd where
  y : ℕ
  m : ℕ
  d : ℕ
deriving DecidableEq, Repr

/-- `String(n).padStart(2, '0')`. -/
def pad2Str (n : ℕ) : String := if n < 10 then "0" ++ toString n else toString n

/-- `String(n).padStart(4, '0')`. -/
def pad4Str (n : ℕ) : String :=
  if n < 10 then "000" ++ toString n
  else if n < 100 then "00" ++ toString n
  else if n < 1000 then "0" ++ toString n
  else toString n

/-- `toIsoDateFromParts(year, month, day)`: the `YYYY-MM-DD` string. -/
def toIsoDateFromParts (x : Ymd) : String := pad4Str x.y ++ "-" ++ pad2Str x.m ++ "-" ++ pad2Str x.d

/-- The date-format family a successfully parsed value belongs to. -/
inductive Family where
  | iso
  | month_name
  | dmy
  | mdy
deriving DecidableEq, Repr

/-- Family names as used in the `DATE_MIXED_FORMATS` error details. -/
def Family.str : Family → String
  | .iso => "iso"
  | .month_name => "month_name"
  | .dmy => "dmy"
  | .mdy => "mdy"

/-- The result of one per-value format parser: a parse with its family, or
the marker objects `{family: 'ambiguous'}` / `{family: 'invalid'}`. -/
inductive DateParse where
  | parsed (family : Family) (date : Ymd)
  | ambiguous
  | invalid
deriving DecidableEq, Repr

/-- The value of a two-digit token (`Number(m[i])` on two digit characters). -/
def val2 (c1 c2 : Char) : ℕ := 10 * digitVal c1 + digitVal c2

/-- The value of a four-digit token. -/
def val4 (c1 c2 c3 c4 : Char) : ℕ := natOfDigits [c1, c2, c3, c4]

/-- `parseIsoDate(raw)`: strict `^\d{4}-\d{2}-\d{2}$` with real-calendar
validation; a failed validation falls through (returns `null`). -/
def parseIsoDate (cs : List Char) : Option DateParse :=
  match cs with
  | [c1, c2, c3, c4, c5, c6, c7, c8, c9, c10] =>
    if c1.isDigit ∧ c2.isDigit ∧ c3.isDigit ∧ c4.isDigit ∧ c5 = '-' ∧ c6.isDigit ∧ c7.isDigit
        ∧ c8 = '-' ∧ c9.isDigit ∧ c10.isDigit then
      let y := val4 c1 c2 c3 c4
      let mo := val2 c6 c7
      let d := val2 c9 c10
      if isValidYmd y mo d then some (.parsed .iso ⟨y, mo, d⟩) else none
    else none
  | _ => none

/-- `/^\d{4}-\d{2}-\d{2}T/.test(raw)`. -/
def looksLikeIsoTs (cs : List Char) : Bool :=
  match cs with
  | c1 :: c2 :: c3 :: c4 :: c5 :: c6 :: c7 :: c8 :: c9 :: c10 :: c11 :: _ =>
    c1.isDigit ∧ c2.isDigit ∧ c3.isDigit ∧ c4.isDigit ∧ c5 = '-' ∧ c6.isDigit ∧ c7.isDigit
      ∧ c8 = '-' ∧ c9.isDigit ∧ c10.isDigit ∧ c11 = 'T'
  | _ => false

/-- `parseIsoTimestamp(raw)`: on a `^\d{4}-\d{2}-\d{2}T` prefix, `new
Date(raw)` truncated to its calendar date.  The embedding reads the date off
the literal prefix and treats the timestamp as valid when that prefix is a
real calendar date; the runtime-timezone-dependent tail handling of `new
Date` is not modelled (no claim quantifies over this branch). -/
def parseIsoTimestamp (cs : List Char) : Option DateParse :=
  if looksLikeIsoTs cs then
    match cs with
    | c1 :: c2 :: c3 :: c4 :: _ :: c6 :: c7 :: _ :: c9 :: c10 :: _ =>
      let y := val4 c1 c2 c3 c4
      let mo := val2 c6 c7
      let d := val2 c9 c10
      if isValidYmd y mo d then some (.parsed .iso ⟨y, mo, d⟩) else none
    | _ => none
  else none

/-- The `monthMap` object of `parseMonthNameDate`. -/
def monthLookup (s : String) : Option ℕ :=
  (List.lookup s
    [("jan", 1), ("january", 1), ("feb", 2), ("february", 2), ("mar", 3), ("march", 3),
      ("apr", 4), ("april", 4), ("may", 5), ("jun", 6), ("june", 6), ("jul", 7), ("july", 7),
      ("aug", 8), ("august", 8), ("sep", 9), ("sept", 9), ("september", 9), ("oct", 10),
      ("october", 10), ("nov", 11), ("november", 11), ("dec", 12), ("december", 12)])

/-- Everything after the first comma
(`s.split(',').slice(1).join(',')`). -/
def afterFirstCommaChars : List Char → List Char
  | [] => []
  | ',' :: rest => rest
  | _ :: rest => afterFirstCommaChars rest

/-- The anchored regex `^([A-Za-z]+)\s+(\d{1,2})(?:,)?\s+(\d{4})$` as a
deterministic scanner: month token, day token value, year token value. -/
def matchMonthRegex (cs : List Char) : Option (List Char × ℕ × ℕ) :=
  let alpha := cs.takeWhile Char.isAlpha
  let r0 := cs.dropWhile Char.isAlpha
  if alpha.isEmpty then none
  else
    let ws1 := r0.takeWhile isJsWs
    let r1 := r0.dropWhile isJsWs
    if ws1.isEmpty then none
    else
      let ds := r1.takeWhile Char.isDigit
      let r2 := r1.dropWhile Char.isDigit
      if ds.isEmpty ∨ 2 < ds.length then none
      else
        let r3 := match r2 with
          | ',' :: rest => rest
          | rest => rest
        let ws2 := r3.takeWhile isJsWs
        let r4 := r3.dropWhile isJsWs
        if ws2.isEmpty then none
        else
          let ys := r4.takeWhile Char.isDigit
          let r5 := r4.dropWhile Char.isDigit
          if ys.length = 4 ∧ r5.isEmpty then some (alpha, natOfDigits ds, natOfDigits ys)
          else none

/-- `parseMonthNameDate(raw)` from `dateNormalizer.js`: trim; if a comma is
present, keep only what follows the first comma (trimmed, falling back to the
whole string when that is empty); then match the month-name regex and look
the month token up (lowercased) in `monthMap`, with real-calendar
validation. -/
def parseMonthNameDate (cs : List Char) : Option DateParse :=
  let s := jsTrim cs
  if s.isEmpty then none
  else
    let afterFirstComma := if s.contains ',' then jsTrim (afterFirstCommaChars s) else s
    let candidate := if afterFirstComma.isEmpty then s else afterFirstComma
    match matchMonthRegex candidate with
    | none => none
    | some (alpha, day, year) =>
      match monthLookup (String.mk (alpha.map Char.toLower)) with
      | none => none
      | some month =>
        if isValidYmd year month day then some (.parsed .month_name ⟨year, month, day⟩)
        else some .invalid

/-- `parseSlashDate(raw)`: strict `^(\d{2})/(\d{2})/(\d{4})$`; tokens outside
1–31 are invalid; a >12 token is the day (day-first or month-first); when
neither or both tokens exceed 12 the value is ambiguous; then real-calendar
validation. -/
def parseSlashDate (cs : List Char) : Option DateParse :=
  match cs with
  | [a1, a2, s1, b1, b2, s2, y1, y2, y3, y4] =>
    if a1.isDigit ∧ a2.isDigit ∧ s1 = '/' ∧ b1.isDigit ∧ b2.isDigit ∧ s2 = '/'
        ∧ y1.isDigit ∧ y2.isDigit ∧ y3.isDigit ∧ y4.isDigit then
      let a := val2 a1 a2
      let b := val2 b1 b2
      let year := val4 y1 y2 y3 y4
      if a < 1 ∨ 31 < a ∨ b < 1 ∨ 31 < b then some .invalid
      else
        let isDmy : Bool := 12 < a ∧ b ≤ 12
        let isMdy : Bool := 12 < b ∧ a ≤ 12
        if ¬isDmy ∧ ¬isMdy then some .ambiguous
        else
          let day := if isDmy then a else b
          let month := if isDmy then b else a
          if isValidYmd year month day then
            some (.parsed (if isDmy then .dmy else .mdy) ⟨year, month, day⟩)
          else some .invalid
    else none
  | _ => none

/-! ## `dateNormalizer.js` — the batch pass -/

/-- Insertion-ordered de-duplication (a JavaScript `Set` built by pushes). -/
def insertUniqAll {α : Type} [BEq α] (l : List α) : List α :=
  l.foldl (fun acc x => if acc.contains x then acc else acc ++ [x]) []

/-- Options of `normalizeDatesInRows` (`sourceName` default `"unknown"`,
`onMissingDate` default `"error"`; the `dateKey` option is fixed at its
default `'date'` — every caller in the repository uses it). -/
structure NormOptions where
  sourceName : Option String := none
  onMissingDate : Option String := none
deriving DecidableEq

/-- An input row as the normalizer sees it: its date cell
(`none` models both a null cell and a missing key). -/
structure DateRow where
  date : Option String
deriving DecidableEq, Repr

/-- A normalized row: the spread original plus `date_raw` and `date_iso`
(kept also as the parsed `Ymd` triple, from which `date_iso` is rendered). -/
structure NormRow where
  date : Option String
  date_raw : String
  ymd : Ymd
  date_iso : String
deriving DecidableEq, Repr

/-- The per-row pass of `normalizeDatesInRows`: normalized rows, the list of
families used (row order, with repeats), and the dropped-for-missing count. -/
def normalizeLoop (sourceName : String) (onMissingDate : String) :
    ℕ → List DateRow → Except JsError (List NormRow × List Family × ℕ)
  | _, [] => .ok ([], [], 0)
  | i, row :: rest =>
    match row.date with
    | none =>
      if onMissingDate = "drop" then
        match normalizeLoop sourceName onMissingDate (i + 1) rest with
        | .error e => .error e
        | .ok (rs, fams, dropped) => .ok (rs, fams, dropped + 1)
      else
        .error { code := "DATE_INVALID",
                 message := "Missing date at row " ++ toString (i + 1) ++ " in " ++ sourceName ++ ".",
                 details := some { rowIndex := some i } }
    | some raw =>
      let s := jsTrim raw.data
      if s.isEmpty then
        if onMissingDate = "drop" then
          match normalizeLoop sourceName onMissingDate (i + 1) rest with
          | .error e => .error e
          | .ok (rs, fams, dropped) => .ok (rs, fams, dropped + 1)
        else
          .error { code := "DATE_INVALID",
                   message := "Missing date at row " ++ toString (i + 1) ++ " in " ++ sourceName ++ ".",
                   details := some { rowIndex := some i } }
      else
        match parseIsoDate s <|> parseIsoTimestamp s <|> parseMonthNameDate s <|> parseSlashDate s with
        | none =>
          .error { code := "DATE_INVALID",
                   message := "Unrecognized date format at row " ++ toString (i + 1) ++ " in " ++ sourceName ++ ".",
                   details := some { rowIndex := some i, value := some (String.mk s) } }
        | some .ambiguous =>
          .error { code := "DATE_AMBIGUOUS",
                   message := "Ambiguous date at row " ++ toString (i + 1) ++ " in " ++ sourceName ++ ".",
                   details := some { rowIndex := some i, value := some (String.mk s) } }
        | some .invalid =>
          .error { code := "DATE_INVALID",
                   message := "Invalid date at row " ++ toString (i + 1) ++ " in " ++ sourceName ++ ".",
                   details := some { rowIndex := some i, value := some (String.mk s) } }
        | some (.parsed fam x) =>
          match normalizeLoop sourceName onMissingDate (i + 1) rest with
          | .error e => .error e
          | .ok (rs, fams, dropped) =>
            .ok ({ date := row.date, date_raw := String.mk s, ymd := x,
                   date_iso := toIsoDateFromParts x } :: rs,
                 fam :: fams, dropped)

/-- Calendar successor (`addDaysIso(cursor, 1)`). -/
def nextDay (x : Ymd) : Ymd :=
  if x.d < daysInMonth x.y x.m then ⟨x.y, x.m, x.d + 1⟩
  else if x.m < 12 then ⟨x.y, x.m + 1, 1⟩
  else ⟨x.y + 1, 1, 1⟩

/-- A rank strictly increased by `nextDay` (fuel bound for the gap scan). -/
def ymdRank (x : Ymd) : ℕ := 372 * x.y + 31 * x.m + x.d

/-- Lexicographic date order; equals JavaScript string `<` on the fixed-width
`YYYY-MM-DD` renderings the normalizer compares. -/
def ymdLt (a b : Ymd) : Bool :=
  a.y < b.y ∨ (a.y = b.y ∧ (a.m < b.m ∨ (a.m = b.m ∧ a.d < b.d)))

/-- Non-strict lexicographic date order. -/
def ymdLe (a b : Ymd) : Bool := ymdLt a b ∨ a = b

/-- The missing-calendar-day scan of the gap warning (the `while (cursor <
max)` loop, run on enough fuel to cover the range). -/
def missingDaysLoop (dateSet : List Ymd) (maxD : Ymd) : Ymd → ℕ → List Ymd
  | _, 0 => []
  | cursor, fuel + 1 =>
    if ymdLt cursor maxD then
      let c := nextDay cursor
      (if ymdLt c maxD ∧ ¬dateSet.contains c then [c] else []) ++
        missingDaysLoop dateSet maxD c fuel
    else []

/-- `normalizeDatesInRows(rows, options)` from `dateNormalizer.js`. -/
def normalizeDatesInRows (rows : List DateRow) (options : NormOptions) :
    Except JsError (List NormRow × List String) :=
  let sourceName := options.sourceName.getD "unknown"
  let onMissingDate := options.onMissingDate.getD "error"
  match normalizeLoop sourceName onMissingDate 0 rows with
  | .error e => .error e
  | .ok (normalized, famList, droppedMissing) =>
    let warnings1 : List String :=
      if 0 < droppedMissing then
        ["Dropped " ++ toString droppedMissing ++ " rows in " ++ sourceName ++
          " due to missing dates."]
      else []
    let distinctFamilies := insertUniqAll famList
    let effectiveFamilies :=
      insertUniqAll (distinctFamilies.map (fun f => if f = Family.iso then Family.iso else f))
    if 1 < effectiveFamilies.length then
      .error { code := "DATE_MIXED_FORMATS",
               message := "Mixed date formats detected in " ++ sourceName ++
                 ". Use a single format per file.",
               details := some { families := effectiveFamilies.map Family.str } }
    else
      let dateSet := insertUniqAll (normalized.map (fun r => r.ymd))
      let warnings2 :=
        if dateSet.length < 7 then
          warnings1 ++ ["Only " ++ toString dateSet.length ++ " distinct dates found in " ++
            sourceName ++ ". Some metrics may be limited."]
        else warnings1
      let sortedDates := jsSort (fun a b => ymdLe a b) dateSet
      let warnings3 :=
        if 2 ≤ sortedDates.length then
          let minD := sortedDates.headD ⟨0, 0, 0⟩
          let maxD := sortedDates.getLastD ⟨0, 0, 0⟩
          let missing := missingDaysLoop dateSet maxD minD (ymdRank maxD - ymdRank minD)
          if ¬missing.isEmpty then
            warnings2 ++ ["Detected " ++ toString missing.length ++ " missing dates between " ++
              toIsoDateFromParts minD ++ " and " ++ toIsoDateFromParts maxD ++ ". Example: " ++
              String.intercalate ", " ((missing.take 5).map toIsoDateFromParts)]
          else warnings2
        else warnings2
      .ok (normalized, warnings3)

/-! ## `dataMerger.js`

Dates are integer day numbers here (see the header comment): for the
canonical `YYYY-MM-DD` keys this stage receives, `addDays` is integer
addition and the string sort is the integer order. -/

/-- An order row entering the merge: `date_iso` (absent/empty string is
`none`) and the raw `total_orders` value. -/
structure OrderRowM where
  date_iso : Option ℤ
  total_orders : JsVal
deriving DecidableEq, Repr

/-- A weather row entering the merge. -/
structure WeatherRowM where
  date_iso : Option ℤ
  temperature_c : JsVal
  rainfall_mm : JsVal
  humidity_pct : JsVal
deriving DecidableEq, Repr

/-- The per-day weather aggregate (`aggregateWeatherDaily` bucket output). -/
structure DailyWeather where
  temperature_c : ℚ
  rainfall_mm : ℚ
  humidity_pct : Option ℚ
deriving DecidableEq, Repr

/-- A merged output row. -/
structure MergedRecord where
  date_iso : ℤ
  total_orders : ℚ
  temperature_c : ℚ
  rainfall_mm : ℚ
  humidity_pct : Option ℚ
  imputed_weather : Bool
deriving DecidableEq, Repr

/-- `byDate.set(d, (byDate.get(d) ?? 0) + q)` on an insertion-ordered map. -/
def alistAddQ (m : List (ℤ × ℚ)) (d : ℤ) (q : ℚ) : List (ℤ × ℚ) :=
  if (m.lookup d).isSome then m.map (fun p => if p.1 = d then (p.1, p.2 + q) else p)
  else m ++ [(d, q)]

/-- `aggregateOrdersDaily(orderRows)`: sum `Number(total_orders)` over rows
with a date, skipping non-finite values; one `(date, sum)` per distinct date,
sorted ascending. -/
def aggregateOrdersDaily (orderRows : List OrderRowM) : List (ℤ × ℚ) :=
  let byDate :=
    orderRows.foldl
      (fun m r =>
        match r.date_iso with
        | none => m
        | some d =>
          match JsVal.toNumber r.total_orders with
          | .fin q => alistAddQ m d q
          | _ => m)
      []
  let dates := jsSort (fun a b => a ≤ b) (byDate.map Prod.fst)
  dates.map (fun d => (d, (byDate.lookup d).getD 0))

/-- The running bucket of `aggregateWeatherDaily`. -/
structure WBucket where
  countTemp : ℕ
  sumTemp : ℚ
  sumRain : ℚ
  countHumidity : ℕ
  sumHumidity : ℚ
deriving DecidableEq, Repr

/-- Update one date's bucket in the insertion-ordered accumulator map. -/
def alistUpdW (m : List (ℤ × WBucket)) (d : ℤ) (f : WBucket → WBucket) : List (ℤ × WBucket) :=
  if (m.lookup d).isSome then m.map (fun p => if p.1 = d then (p.1, f p.2) else p)
  else m ++ [(d, f ⟨0, 0, 0, 0, 0⟩)]

/-- One weather row folded into its bucket (finite readings only). -/
def wBucketStep (r : WeatherRowM) (b : WBucket) : WBucket :=
  let b1 :=
    match r.temperature_c with
    | .num q => { b with countTemp := b.countTemp + 1, sumTemp := b.sumTemp + q }
    | _ => b
  let b2 :=
    match r.rainfall_mm with
    | .num q => { b1 with sumRain := b1.sumRain + q }
    | _ => b1
  match r.humidity_pct with
  | .num q => { b2 with countHumidity := b2.countHumidity + 1, sumHumidity := b2.sumHumidity + q }
  | _ => b2

/-- `aggregateWeatherDaily(weatherRows)`: mean temperature over finite
readings, summed rainfall, mean humidity over finite readings; a date with no
finite temperature reading is not materialized. -/
def aggregateWeatherDaily (weatherRows : List WeatherRowM) : List (ℤ × DailyWeather) :=
  let acc :=
    weatherRows.foldl
      (fun m r =>
        match r.date_iso with
        | none => m
        | some d => alistUpdW m d (wBucketStep r))
      []
  acc.filterMap fun p =>
    if p.2.countTemp = 0 then none
    else
      some (p.1,
        { temperature_c := p.2.sumTemp / (p.2.countTemp : ℚ),
          rainfall_mm := p.2.sumRain,
          humidity_pct :=
            if p.2.countHumidity ≠ 0 then some (p.2.sumHumidity / (p.2.countHumidity : ℚ))
            else none })

/-- The offset loop of `findNearestWeather`: at each offset try `date -
offset` before `date + offset`; `rem` is the number of offsets left. -/
def findNearestGo (m : List (ℤ × DailyWeather)) (d : ℤ) : ℕ → ℕ → Option (DailyWeather × Bool)
  | 0, _ => none
  | rem + 1, offset =>
    match m.lookup (d - (offset : ℤ)) with
    | some w => some (w, true)
    | none =>
      match m.lookup (d + (offset : ℤ)) with
      | some w => some (w, true)
      | none => findNearestGo m d rem (offset + 1)

/-- `findNearestWeather(dateIso, weatherByDate, maxGapDays)`: exact match
first (`imputed = false`), then the interleaved outward search. -/
def findNearestWeather (d : ℤ) (m : List (ℤ × DailyWeather)) (maxGapDays : ℕ) :
    Option (DailyWeather × Bool) :=
  match m.lookup d with
  | some w => some (w, false)
  | none => findNearestGo m d maxGapDays 1

/-- Options of `mergeOrdersWithWeather` (`maxGapDays`, default 3; the source
accepts any finite number — the embedding keeps the integral case every
caller uses). -/
structure MergeOptions where
  maxGapDays : Option ℕ := none
deriving DecidableEq, Repr

/-- The merged row built from an order aggregate and its (possibly imputed)
weather. -/
def mkMergedRecord (o : ℤ × ℚ) (w : DailyWeather) (imputed : Bool) : MergedRecord :=
  { date_iso := o.1, total_orders := o.2, temperature_c := w.temperature_c,
    rainfall_mm := w.rainfall_mm, humidity_pct := w.humidity_pct,
    imputed_weather := imputed }

/-- The per-date loop of `mergeOrdersWithWeather`: merged rows and
dropped-date warnings, in aggregate order. -/
def mergeLoop (weatherByDate : List (ℤ × DailyWeather)) (maxGapDays : ℕ) :
    List (ℤ × ℚ) → List MergedRecord × List String
  | [] => ([], [])
  | o :: rest =>
    let r2 := mergeLoop weatherByDate maxGapDays rest
    match findNearestWeather o.1 weatherByDate maxGapDays with
    | none =>
      (r2.1,
        ("Weather could not be imputed for " ++ toString o.1 ++ " within " ++
          toString maxGapDays ++ " days. Dropping row.") :: r2.2)
    | some (w, imputed) => (mkMergedRecord o w imputed :: r2.1, r2.2)

/-- `mergeOrdersWithWeather(orderRows, weatherRows, options)` from
`dataMerger.js`. -/
def mergeOrdersWithWeather (orderRows : List OrderRowM) (weatherRows : List WeatherRowM)
    (options : MergeOptions) : Except JsError (List MergedRecord × List String) :=
  let maxGapDays := options.maxGapDays.getD 3
  let dailyOrders := aggregateOrdersDaily orderRows
  let weatherByDate := aggregateWeatherDaily weatherRows
  let step := mergeLoop weatherByDate maxGapDays dailyOrders
  let merged := jsSort (fun a b => a.date_iso ≤ b.date_iso) step.1
  if merged.isEmpty then
    .error { code := "MERGE_NO_ROWS",
             message := "Merge produced no rows. Check date normalization and imputation rules." }
  else .ok (merged, step.2)

/-! ## `metricsCalculator.js`

`Math.sqrt` (used only for the Pearson denominator) has no exact rational
counterpart; the embedding takes it as an explicit function parameter
`sqrtFn`, left uninterpreted — no claim under study depends on its values. -/

/-- A merged row as the metrics engine receives it (fields may hold any
JavaScript value when the function is called directly). -/
structure MetricsRow where
  date_iso : ℤ
  total_orders : JsVal
  temperature_c : JsVal
  rainfall_mm : JsVal
  humidity_pct : JsVal
  imputed_weather : Bool
deriving DecidableEq, Repr

/-- The merger's output viewed as metrics input. -/
def MergedRecord.toMetricsRow (r : MergedRecord) : MetricsRow :=
  { date_iso := r.date_iso, total_orders := .num r.total_orders,
    temperature_c := .num r.temperature_c, rainfall_mm := .num r.rainfall_mm,
    humidity_pct := match r.humidity_pct with | some q => .num q | none => .null,
    imputed_weather := r.imputed_weather }

/-- `percentile(sortedValues, p)` with linear interpolation between order
statistics (`none` only on an empty list). -/
def percentile (sortedValues : List ℚ) (p : ℚ) : Option ℚ :=
  if sortedValues.isEmpty then none
  else if p ≤ 0 then some (sortedValues.getD 0 0)
  else if 1 ≤ p then some (sortedValues.getD (sortedValues.length - 1) 0)
  else
    let idx : ℚ := ((sortedValues.length - 1 : ℕ) : ℚ) * p
    let lo := (Int.floor idx).toNat
    let hi := (Int.ceil idx).toNat
    if lo = hi then some (sortedValues.getD lo 0)
    else
      let w := idx - (lo : ℚ)
      some (sortedValues.getD lo 0 * (1 - w) + sortedValues.getD hi 0 * w)

/-- `safeAverage(values)`: mean of the finite values, `null` if none. -/
def safeAverage (values : List JsVal) : Option ℚ :=
  let finite := values.filterMap JsVal.finPart
  if finite.isEmpty then none else some (finite.sum / (finite.length : ℚ))

/-- `computeMovingAverage(values, windowSize)`: running-sum trailing window
(shorter inputs give all-`null`; a `NaN` poisons the running sum for good,
exactly as in the source). -/
def computeMovingAverage (values : List JsNumber) (windowSize : ℕ) : List (Option JsNumber) :=
  if values.length < windowSize then values.map (fun _ => none)
  else
    (values.enum.foldl
      (fun (acc : JsNumber × List (Option JsNumber)) iv =>
        let sum1 := acc.1.add iv.2
        let sum2 :=
          if windowSize ≤ iv.1 then sum1.sub (values.getD (iv.1 - windowSize) (.fin 0))
          else sum1
        let entry := if windowSize - 1 ≤ iv.1 then some (sum2.divNat windowSize) else none
        (sum2, acc.2 ++ [entry]))
      (.fin 0, [])).2

/-- `pearsonCorrelation(xs, ys)` over index-aligned pairs where both sides
are finite; `null` under 3 pairs or when the denominator is zero (the only
way the square-root denominator can be rejected in the exact model). -/
def pearsonCorrelation (sqrtFn : ℚ → ℚ) (xs ys : List (Option ℚ)) : Option ℚ :=
  let pairs :=
    (xs.zip ys).filterMap fun p =>
      match p.1, p.2 with
      | some x, some y => some (x, y)
      | _, _ => none
  if pairs.length < 3 then none
  else
    let n : ℚ := (pairs.length : ℚ)
    let meanX := (pairs.map Prod.fst).sum / n
    let meanY := (pairs.map Prod.snd).sum / n
    let num := (pairs.map (fun p => (p.1 - meanX) * (p.2 - meanY))).sum
    let denX := (pairs.map (fun p => (p.1 - meanX) * (p.1 - meanX))).sum
    let denY := (pairs.map (fun p => (p.2 - meanY) * (p.2 - meanY))).sum
    let denom := sqrtFn (denX * denY)
    if denom = 0 then none else some (num / denom)

/-- `dayOfWeekLabel(dow)`. -/
def dayOfWeekLabel (dow : ℕ) : String :=
  (["Sun", "Mon", "Tue", "Wed", "Thu", "Fri", "Sat"].getD dow (toString dow))

/-- `parseIsoToDate(date_iso).getDay()`: day 0 (1970-01-01) was a Thursday. -/
def dayOfWeek (d : ℤ) : ℕ := ((d + 4) % 7).toNat

/-- `is_rainy`: `Number(rainfall_mm)` strictly above the threshold when that
coercion is finite, `false` otherwise. -/
def rowIsRainy (thr : ℚ) (r : MetricsRow) : Bool :=
  match JsVal.toNumber r.rainfall_mm with
  | .fin q => decide (thr < q)
  | _ => false

/-- `temp_category`: `cold` below p25, `hot` above p75, else `moderate`;
`null` when the temperature or a percentile is unavailable. -/
def tempCategory (p25 p75 : Option ℚ) (t : JsVal) : Option String :=
  match t, p25, p75 with
  | .num q, some lo, some hi =>
    some (if q < lo then "cold" else if hi < q then "hot" else "moderate")
  | _, _, _ => none

/-- An enriched row (`MergedRecord` fields plus the derived ones). -/
structure EnrichedRow where
  date_iso : ℤ
  total_orders : JsVal
  temperature_c : JsVal
  rainfall_mm : JsVal
  humidity_pct : JsVal
  imputed_weather : Bool
  is_rainy : Bool
  day_of_week : ℕ
  temp_category : Option String
  moving_avg_7 : Option JsNumber
deriving DecidableEq, Repr

/-- The `enriched` map of `calculateMetricsAndCharts`. -/
def enrichRows (thr : ℚ) (p25 p75 : Option ℚ) (sortedRows : List MetricsRow)
    (movingAvg7 : List (Option JsNumber)) : List EnrichedRow :=
  List.zipWith
    (fun r ma =>
      { date_iso := r.date_iso, total_orders := r.total_orders,
        temperature_c := r.temperature_c, rainfall_mm := r.rainfall_mm,
        humidity_pct := r.humidity_pct, imputed_weather := r.imputed_weather,
        is_rainy := rowIsRainy thr r, day_of_week := dayOfWeek r.date_iso,
        temp_category := tempCategory p25 p75 r.temperature_c, moving_avg_7 := ma })
    sortedRows movingAvg7

/-- JavaScript `<` between two field values. -/
def JsVal.ltV (a b : JsVal) : Bool := JsNumber.gtB b.toNumber a.toNumber

/-- The KPI record (presentation strings such as `"2024-01-05 (300)"` are
represented structurally by the data they interpolate). -/
structure Kpis where
  totalOrders : ℤ
  avgOrdersPerDay : ℚ
  rainyDayAvg : Option ℚ
  nonRainyDayAvg : Option ℚ
  percentIncrease : Option ℚ
  rainyDays : ℕ
  nonRainyDays : ℕ
  imputedWeatherPct : ℚ
  maxOrdersDay : Option (ℤ × JsVal)
  minOrdersDay : Option (ℤ × JsVal)
  hottestDay : Option (ℤ × ℚ)
  coldestDay : Option (ℤ × ℚ)
  bestWeekday : Option (String × ℚ)
  tempOrderCorr : Option ℚ
deriving DecidableEq, Repr

/-- One `chartData.ordersOverTime` point. -/
structure OrdersOverTimePoint where
  date_iso : ℤ
  total_orders : JsVal
  is_rainy : Bool
  moving_avg_7 : Option JsNumber
deriving DecidableEq, Repr

/-- `chartData.weatherImpact`. -/
structure WeatherImpact where
  rainyAvg : Option ℚ
  nonRainyAvg : Option ℚ
  percentDifference : Option ℚ
  rainyDays : ℕ
  nonRainyDays : ℕ
deriving DecidableEq, Repr

/-- One `chartData.tempCorrelation` point. -/
structure TempCorrelationPoint where
  date_iso : ℤ
  temperature_c : JsVal
  total_orders : JsVal
  is_rainy : Bool
deriving DecidableEq, Repr

/-- One `chartData.dayOfWeek` aggregate. -/
structure DowEntry where
  dow : ℕ
  label : String
  count : ℕ
  avg_orders : Option ℚ
deriving DecidableEq, Repr

/-- `chartData`. -/
structure ChartData where
  ordersOverTime : List OrdersOverTimePoint
  weatherImpact : WeatherImpact
  tempCorrelation : List TempCorrelationPoint
  dayOfWeek : List DowEntry
  tempOrderCorr : Option ℚ
  tempBucketsP25 : Option ℚ
  tempBucketsP75 : Option ℚ
deriving DecidableEq, Repr

/-- The metrics engine's success payload. -/
structure MetricsOutput where
  kpis : Kpis
  chartData : ChartData
  warnings : List String
deriving DecidableEq, Repr

/-- Options of `calculateMetricsAndCharts` (`rainThresholdMm`, default 1). -/
structure MetricsOptions where
  rainThresholdMm : Option ℚ := none
deriving DecidableEq, Repr

/-- The day-of-week bucket fold (`count`/`sumOrders` per weekday). -/
def dowFold (enriched : List EnrichedRow) : List (ℕ × ℚ) :=
  enriched.foldl
    (fun buckets r =>
      if 6 < r.day_of_week then buckets
      else
        match r.total_orders with
        | .num q =>
          let b := buckets.getD r.day_of_week (0, 0)
          buckets.set r.day_of_week (b.1 + 1, b.2 + q)
        | _ => buckets)
    (List.replicate 7 (0, 0))

/-- `calculateMetricsAndCharts(mergedRows, options)` from
`metricsCalculator.js`. -/
def calculateMetricsAndCharts (sqrtFn : ℚ → ℚ) (mergedRows : List MetricsRow)
    (options : MetricsOptions) : Except JsError MetricsOutput :=
  let rainThresholdMm := options.rainThresholdMm.getD 1
  if mergedRows.isEmpty then
    .error { code := "MERGE_NO_ROWS", message := "No merged data to calculate metrics." }
  else
    let rows := jsSort (fun a b => a.date_iso ≤ b.date_iso) mergedRows
    let temperatures :=
      jsSort (fun a b => a ≤ b) (rows.filterMap (fun r => r.temperature_c.finPart))
    let p25 := percentile temperatures (1 / 4)
    let p75 := percentile temperatures (3 / 4)
    let warnings :=
      if rows.length < 7 then ["Dataset is shorter than 7 days; some metrics may be unstable."]
      else []
    let ordersSeries := rows.map (fun r => r.total_orders.toNumber)
    let movingAvg7 := computeMovingAverage ordersSeries 7
    let enriched := enrichRows rainThresholdMm p25 p75 rows movingAvg7
    let totalOrders :=
      enriched.foldl (fun s r => s + (match r.total_orders with | .num q => q | _ => 0)) 0
    let avgOrdersPerDay := totalOrders / (enriched.length : ℚ)
    let imputedCount := enriched.foldl (fun n r => n + (if r.imputed_weather then 1 else 0)) 0
    let imputedPct : ℚ :=
      if enriched.length ≠ 0 then (imputedCount : ℚ) / (enriched.length : ℚ) else 0
    let maxOrdersRow :=
      enriched.foldl
        (fun best r =>
          match best with
          | none => some r
          | some b =>
            if r.total_orders.isFiniteV ∧ JsVal.gtV r.total_orders b.total_orders then some r
            else some b)
        none
    let minOrdersRow :=
      enriched.foldl
        (fun best r =>
          match best with
          | none => some r
          | some b =>
            if r.total_orders.isFiniteV ∧ JsVal.ltV r.total_orders b.total_orders then some r
            else some b)
        none
    let hottestRow :=
      enriched.foldl
        (fun best r =>
          match best with
          | none => some r
          | some b =>
            if r.temperature_c.isFiniteV ∧ JsVal.gtV r.temperature_c b.temperature_c then some r
            else some b)
        none
    let coldestRow :=
      enriched.foldl
        (fun best r =>
          match best with
          | none => some r
          | some b =>
            if r.temperature_c.isFiniteV ∧ JsVal.ltV r.temperature_c b.temperature_c then some r
            else some b)
        none
    let rainyOrders := (enriched.filter (fun r => r.is_rainy)).map (fun r => r.total_orders)
    let nonRainyOrders := (enriched.filter (fun r => ¬r.is_rainy)).map (fun r => r.total_orders)
    let rainyDayAvg := safeAverage rainyOrders
    let nonRainyDayAvg := safeAverage nonRainyOrders
    let percentIncrease : Option ℚ :=
      match nonRainyDayAvg, rainyDayAvg with
      | some nr, some ra => if nr ≠ 0 then some ((ra - nr) / nr) else none
      | _, _ => none
    let dowBuckets := dowFold enriched
    let dayOfWeekList :=
      (List.range 7).map fun dow =>
        let b := dowBuckets.getD dow (0, 0)
        ({ dow := dow, label := dayOfWeekLabel dow, count := b.1,
           avg_orders := if b.1 ≠ 0 then some (b.2 / (b.1 : ℚ)) else none } : DowEntry)
    let bestDow :=
      (jsSort (fun a b => b.avg_orders.getD 0 ≤ a.avg_orders.getD 0)
        (dayOfWeekList.filter (fun d => d.avg_orders.isSome))).head?
    let bestWeekday := bestDow.map fun d => (d.label, round2 (d.avg_orders.getD 0))
    let tempXs := enriched.map (fun r => r.temperature_c.finPart)
    let orderYs := enriched.map (fun r => r.total_orders.finPart)
    let tempOrderCorr := pearsonCorrelation sqrtFn tempXs orderYs
    let tempOrderCorrRounded := tempOrderCorr.map round3
    let kpis : Kpis :=
      { totalOrders := jsRound totalOrders,
        avgOrdersPerDay := round2 avgOrdersPerDay,
        rainyDayAvg := rainyDayAvg.map round2,
        nonRainyDayAvg := nonRainyDayAvg.map round2,
        percentIncrease := percentIncrease.map (fun x => ((jsRound (x * 10000) : ℚ) / 100)),
        rainyDays := rainyOrders.length,
        nonRainyDays := nonRainyOrders.length,
        imputedWeatherPct := (jsRound (imputedPct * 10000) : ℚ) / 100,
        maxOrdersDay := maxOrdersRow.map (fun r => (r.date_iso, r.total_orders)),
        minOrdersDay := minOrdersRow.map (fun r => (r.date_iso, r.total_orders)),
        hottestDay :=
          match hottestRow with
          | some r => (r.temperature_c.finPart).map (fun q => (r.date_iso, round1 q))
          | none => none,
        coldestDay :=
          match coldestRow with
          | some r => (r.temperature_c.finPart).map (fun q => (r.date_iso, round1 q))
          | none => none,
        bestWeekday := bestWeekday,
        tempOrderCorr := tempOrderCorrRounded }
    let chartData : ChartData :=
      { ordersOverTime :=
          enriched.map fun r =>
            { date_iso := r.date_iso, total_orders := r.total_orders, is_rainy := r.is_rainy,
              moving_avg_7 := r.moving_avg_7 },
        weatherImpact :=
          { rainyAvg := kpis.rainyDayAvg, nonRainyAvg := kpis.nonRainyDayAvg,
            percentDifference := kpis.percentIncrease, rainyDays := kpis.rainyDays,
            nonRainyDays := kpis.nonRainyDays },
        tempCorrelation :=
          enriched.map fun r =>
            { date_iso := r.date_iso, temperature_c := r.temperature_c,
              total_orders := r.total_orders, is_rainy := r.is_rainy },
        dayOfWeek := dayOfWeekList,
        tempOrderCorr := tempOrderCorrRounded,
        tempBucketsP25 := p25,
        tempBucketsP75 := p75 }
    .ok { kpis := kpis, chartData := chartData, warnings := warnings }

/-! ## Rendered inputs used by the universally quantified claims -/

/-- The ten characters of a two-digit/two-digit/four-digit slash date value
(`"dd/dd/dddd"` with token values `a`, `b`, `y`). -/
def slashChars (a b y : ℕ) : List Char :=
  [digitChar (a / 10), digitChar (a % 10), '/', digitChar (b / 10), digitChar (b % 10), '/',
    digitChar (y / 1000), digitChar (y / 100 % 10), digitChar (y / 10 % 10), digitChar (y % 10)]

/-- Digit groups joined by commas (`"1,2,3"`-style cell values). -/
def commaGroups : List (List ℕ) → List Char
  | [] => []
  | [g] => g.map digitChar
  | g :: gs => g.map digitChar ++ ',' :: commaGroups gs

/-! ## Claims -/

/-- C3: the spec says the month-name form tolerates a leading time-of-day
fragment before the first comma and an optional comma before the year.  The
source's own comments document the form `"September 10, 2024"`, but the code
strips everything up to the first comma, so that value (comma before the
year, no time prefix) leaves only `"2024"` to match and the batch fails with
`DATE_INVALID`; the prefixed forms and the comma-free form do normalize to
`2024-09-10`.  This evaluates the code at the failing and passing inputs. -/
theorem c3_month_name_tolerance_eval :
    errCode (normalizeDatesInRows [⟨some "September 10, 2024"⟩] {}) = some "DATE_INVALID"
    ∧ parseMonthNameDate "September 10, 2024".data = none
    ∧ (normalizeDatesInRows [⟨some "11:38 PM, September 10 2024"⟩] {}).toOption.map
        (fun p => p.1.map (fun r => r.date_iso)) = some ["2024-09-10"]
    ∧ (normalizeDatesInRows [⟨some "11:38 PM, September 10, 2024"⟩] {}).toOption.map
        (fun p => p.1.map (fun r => r.date_iso)) = some ["2024-09-10"]
    ∧ (normalizeDatesInRows [⟨some "September 10 2024"⟩] {}).toOption.map
        (fun p => p.1.map (fun r => r.date_iso)) = some ["2024-09-10"]
    ∧ (normalizeDatesInRows [⟨some "Sep 10 2024"⟩] {}).toOption.map
        (fun p => p.1.map (fun r => r.date_iso)) = some ["2024-09-10"] := by
  decide

/-- C8: every stage of the embedded pipeline is a pure function, so running
any stage twice on identical inputs (texts, rows, options, and the same
square-root function for the metrics stage) yields identical results —
including rows, KPIs, chart data and warnings in identical order. -/
theorem c8_pipeline_deterministic :
    (∀ text options, parseCsvText text options = parseCsvText text options)
    ∧ (∀ rows options, normalizeDatesInRows rows options = normalizeDatesInRows rows options)
    ∧ (∀ orderRows weatherRows options,
        mergeOrdersWithWeather orderRows weatherRows options =
          mergeOrdersWithWeather orderRows weatherRows options)
    ∧ (∀ sqrtFn mergedRows options,
        calculateMetricsAndCharts sqrtFn mergedRows options =
          calculateMetricsAndCharts sqrtFn mergedRows options) :=
  ⟨fun _ _ => rfl, fun _ _ => rfl, fun _ _ _ => rfl, fun _ _ _ => rfl⟩

/-- C1, counterexample to the claim as stated: a single order row with
`total_orders = 0` produces the aggregate `[(0, 0)]`, and the merge surfaces
that date with sum `0` — which is not positive.  The "positive-sum"
half of the anchor invariant is therefore false on the code. -/
theorem c1_counterexample :
    aggregateOrdersDaily [⟨some 0, .num 0⟩] = [(0, 0)]
    ∧ mergeOrdersWithWeather [⟨some 0, .num 0⟩] [⟨some 0, .num 20, .num 0, .null⟩] {} =
        .ok ([{ date_iso := 0, total_orders := 0, temperature_c := 20, rainfall_mm := 0,
                humidity_pct := none, imputed_weather := false }], [])
    ∧ ¬(0 : ℚ) < 0 := by
  refine ⟨?_, ?_, by norm_num⟩
  · norm_num [aggregateOrdersDaily, alistAddQ, JsVal.toNumber, jsSort, insertLe, List.lookup]
  · norm_num [mergeOrdersWithWeather, aggregateOrdersDaily, aggregateWeatherDaily, alistAddQ,
      alistUpdW, wBucketStep, JsVal.toNumber, jsSort, insertLe, mergeLoop, findNearestWeather,
      List.lookup, mkMergedRecord]

/-- C2, counterexample to the claim as stated: in `"00/01/2024"` both numeric
tokens (0 and 1) are at most 12, yet the batch fails with `DATE_INVALID`
(the 1–31 range check fires before the ambiguity check), not with
`DATE_AMBIGUOUS`. -/
theorem c2_counterexample :
    natOfDigits "00".data ≤ 12 ∧ natOfDigits "01".data ≤ 12
    ∧ errCode (normalizeDatesInRows [⟨some "00/01/2024"⟩] {}) = some "DATE_INVALID"
    ∧ errCode (normalizeDatesInRows [⟨some "00/01/2024"⟩] {}) ≠ some "DATE_AMBIGUOUS" := by
  decide

/-- C4, counterexample to the claim as stated: `"13/13/2024"` fails
real-calendar validation under either reading (its month token would be 13),
yet normalization fails with `DATE_AMBIGUOUS` — the neither-or-both-above-12
branch fires before any calendar validation — not with `DATE_INVALID`. -/
theorem c4_counterexample :
    isValidYmd 2024 13 13 = false
    ∧ errCode (normalizeDatesInRows [⟨some "13/13/2024"⟩] {}) = some "DATE_AMBIGUOUS"
    ∧ errCode (normalizeDatesInRows [⟨some "13/13/2024"⟩] {}) ≠ some "DATE_INVALID" := by
  decide

/-- C7, counterexample to the claim as stated: a non-numeric cell fails with
the code string `CSV_INVALID_NUMBER`, not the spec's `INVALID_NUMBER`. -/
theorem c7_counterexample :
    errCode (coerceNumber (some "abc") "total_orders" 2) = some "CSV_INVALID_NUMBER"
    ∧ errCode (coerceNumber (some "abc") "total_orders" 2) ≠ some "INVALID_NUMBER" := by
  decide

/-- C10, counterexample to the claim as stated: with a caller-chosen negative
rain threshold, a row whose `rainfall_mm` is null is classified rainy
(`Number(null) = 0 > -1`) and lands in the rainy bucket, so "not a finite
number is always non-rainy" fails on the code. -/
theorem c10_counterexample :
    rowIsRainy (-1) ⟨0, .num 5, .num 20, .null, .null, false⟩ = true
    ∧ (calculateMetricsAndCharts (fun _ => 0) [⟨0, .num 5, .num 20, .null, .null, false⟩]
        ⟨some (-1)⟩).toOption.map
        (fun o => (o.chartData.ordersOverTime.map (fun p => p.is_rainy), o.kpis.rainyDays,
          o.kpis.nonRainyDays)) = some ([true], 1, 0) := by
  constructor
  · norm_num [rowIsRainy, JsVal.toNumber]
  · norm_num [calculateMetricsAndCharts, jsSort, insertLe, percentile, safeAverage,
      computeMovingAverage, enrichRows, rowIsRainy, tempCategory, JsVal.toNumber, JsVal.finPart,
      dayOfWeek, round2, jsRound, Except.toOption, List.filterMap, dowFold]

/-! ### Digit-character facts -/

theorem digitVal_digitChar (n : ℕ) (h : n < 10) : digitVal (digitChar n) = n := by
  interval_cases n <;> decide

theorem isDigit_digitChar (n : ℕ) (h : n < 10) : (digitChar n).isDigit = true := by
  interval_cases n <;> decide

theorem isJsWs_digitChar (n : ℕ) (h : n < 10) : isJsWs (digitChar n) = false := by
  interval_cases n <;> decide

theorem isAlpha_digitChar (n : ℕ) (h : n < 10) : (digitChar n).isAlpha = false := by
  interval_cases n <;> decide

theorem digitChar_ne_comma (n : ℕ) (h : n < 10) : digitChar n ≠ ',' := by
  interval_cases n <;> decide

theorem digitChar_ne_dash (n : ℕ) (h : n < 10) : digitChar n ≠ '-' := by
  interval_cases n <;> decide

theorem val2_digitChar {a : ℕ} (h : a ≤ 99) :
    val2 (digitChar (a / 10)) (digitChar (a % 10)) = a := by
  have h1 := digitVal_digitChar (a / 10) (by omega)
  have h2 := digitVal_digitChar (a % 10) (by omega)
  unfold val2
  rw [h1, h2]
  omega

theorem val4_digitChar {y : ℕ} (h : y ≤ 9999) :
    val4 (digitChar (y / 1000)) (digitChar (y / 100 % 10)) (digitChar (y / 10 % 10))
      (digitChar (y % 10)) = y := by
  have h1 := digitVal_digitChar (y / 1000) (by omega)
  have h2 := digitVal_digitChar (y / 100 % 10) (by omega)
  have h3 := digitVal_digitChar (y / 10 % 10) (by omega)
  have h4 := digitVal_digitChar (y % 10) (by omega)
  unfold val4 natOfDigits
  simp only [List.foldl]
  rw [h1, h2, h3, h4]
  omega

/-! ### Trimming facts -/

theorem dropWhile_cons_of_neg {p : Char → Bool} {c : Char} {l : List Char} (h : p c = false) :
    (c :: l).dropWhile p = c :: l := by
  simp [List.dropWhile, h]

theorem jsTrimEnd_concat {l : List Char} {c : Char} (h : isJsWs c = false) :
    jsTrimEnd (l ++ [c]) = l ++ [c] := by
  unfold jsTrimEnd
  rw [List.reverse_append]
  simp [dropWhile_cons_of_neg h]

theorem jsTrim_of_ends {c d : Char} {mid : List Char} (hc : isJsWs c = false)
    (hd : isJsWs d = false) : jsTrim (c :: (mid ++ [d])) = c :: (mid ++ [d]) := by
  unfold jsTrim jsTrimStart
  rw [dropWhile_cons_of_neg hc]
  have h : c :: (mid ++ [d]) = (c :: mid) ++ [d] := by simp
  rw [h, jsTrimEnd_concat hd]

/-! ### Calendar bounds -/

theorem daysInMonth_le (y m : ℕ) : daysInMonth y m ≤ 31 := by
  unfold daysInMonth
  split
  · split <;> omega
  · split <;> omega

theorem isValidYmd_eq_false {y m d : ℕ} (h : 31 < d ∨ m < 1 ∨ 12 < m ∨ d < 1) :
    isValidYmd y m d = false := by
  have hd := daysInMonth_le y m
  simp only [isValidYmd, decide_eq_false_iff_not]
  intro hc
  omega

/-! ### The slash form, symbolically -/

theorem slashChars_shape (a b y : ℕ) :
    slashChars a b y =
      digitChar (a / 10) ::
        ([digitChar (a % 10), '/', digitChar (b / 10), digitChar (b % 10), '/',
          digitChar (y / 1000), digitChar (y / 100 % 10), digitChar (y / 10 % 10)] ++
          [digitChar (y % 10)]) := rfl

theorem jsTrim_slashChars (a b y : ℕ) (ha : a ≤ 99) :
    jsTrim (slashChars a b y) = slashChars a b y := by
  rw [slashChars_shape]
  exact jsTrim_of_ends (isJsWs_digitChar (a / 10) (by omega)) (isJsWs_digitChar (y % 10) (by omega))

theorem parseIsoDate_slashChars (a b y : ℕ) : parseIsoDate (slashChars a b y) = none := by
  simp only [slashChars, parseIsoDate]
  rw [if_neg]
  intro hc
  exact absurd hc.2.2.1 (by decide)

theorem looksLikeIsoTs_slashChars (a b y : ℕ) : looksLikeIsoTs (slashChars a b y) = false := rfl

theorem parseIsoTimestamp_slashChars (a b y : ℕ) : parseIsoTimestamp (slashChars a b y) = none := by
  simp [parseIsoTimestamp, looksLikeIsoTs_slashChars]

theorem contains_comma_slashChars (a b y : ℕ) (ha : a ≤ 99) (hb : b ≤ 99) (hy : y ≤ 9999) :
    (slashChars a b y).contains ',' = false := by
  simp [slashChars, List.contains, List.elem_cons]
  refine ⟨?_, ?_, ?_, ?_, ?_, ?_, ?_, ?_⟩ <;> exact Ne.symm (digitChar_ne_comma _ (by omega))

theorem isEmpty_slashChars (a b y : ℕ) : (slashChars a b y).isEmpty = false := rfl

theorem matchMonthRegex_eq_none_of_alpha {cs : List Char}
    (h : cs.takeWhile Char.isAlpha = []) : matchMonthRegex cs = none := by
  simp only [matchMonthRegex, h]
  rfl

theorem parseMonthNameDate_slashChars (a b y : ℕ) (ha : a ≤ 99) (hb : b ≤ 99) (hy : y ≤ 9999) :
    parseMonthNameDate (slashChars a b y) = none := by
  have halpha : (slashChars a b y).takeWhile Char.isAlpha = [] := by
    rw [slashChars_shape, List.takeWhile_cons]
    simp [isAlpha_digitChar (a / 10) (by omega)]
  simp only [parseMonthNameDate, jsTrim_slashChars a b y ha, isEmpty_slashChars,
    contains_comma_slashChars a b y ha hb hy, Bool.false_eq_true, if_false,
    matchMonthRegex_eq_none_of_alpha halpha]

theorem stringData_mk (cs : List Char) : (String.mk cs).data = cs := rfl

theorem parseSlashDate_slashChars_eq (a b y : ℕ) (ha : a ≤ 99) (hb : b ≤ 99) (hy : y ≤ 9999) :
    parseSlashDate (slashChars a b y) =
      if a < 1 ∨ 31 < a ∨ b < 1 ∨ 31 < b then some DateParse.invalid
      else
        if ¬(12 < a ∧ b ≤ 12) ∧ ¬(12 < b ∧ a ≤ 12) then some DateParse.ambiguous
        else
          if isValidYmd y (if 12 < a ∧ b ≤ 12 then b else a) (if 12 < a ∧ b ≤ 12 then a else b) then
            some (DateParse.parsed (if 12 < a ∧ b ≤ 12 then Family.dmy else Family.mdy)
              ⟨y, (if 12 < a ∧ b ≤ 12 then b else a), (if 12 < a ∧ b ≤ 12 then a else b)⟩)
          else some DateParse.invalid := by
  simp only [parseSlashDate, slashChars]
  rw [if_pos ⟨isDigit_digitChar _ (by omega), isDigit_digitChar _ (by omega), trivial,
    isDigit_digitChar _ (by omega), isDigit_digitChar _ (by omega), trivial,
    isDigit_digitChar _ (by omega), isDigit_digitChar _ (by omega),
    isDigit_digitChar _ (by omega), isDigit_digitChar _ (by omega)⟩]
  rw [val2_digitChar ha, val2_digitChar hb, val4_digitChar hy]
  simp only [decide_eq_true_eq]

theorem parseSlashDate_ambiguous_of (a b y : ℕ) (ha : a ≤ 99) (hb : b ≤ 99) (hy : y ≤ 9999)
    (h1 : 1 ≤ a) (h2 : a ≤ 12) (h3 : 1 ≤ b) (h4 : b ≤ 12) :
    parseSlashDate (slashChars a b y) = some DateParse.ambiguous := by
  rw [parseSlashDate_slashChars_eq a b y ha hb hy, if_neg (by omega), if_pos (by omega)]

theorem parseSlashDate_dmy_of (a b y : ℕ) (ha : a ≤ 99) (hb : b ≤ 99) (hy : y ≤ 9999)
    (h1 : 12 < a) (h2 : b ≤ 12) :
    parseSlashDate (slashChars a b y) =
      if isValidYmd y b a then some (DateParse.parsed Family.dmy ⟨y, b, a⟩)
      else some DateParse.invalid := by
  rw [parseSlashDate_slashChars_eq a b y ha hb hy]
  by_cases hr : a < 1 ∨ 31 < a ∨ b < 1 ∨ 31 < b
  · rw [if_pos hr, isValidYmd_eq_false (by omega), if_neg (by simp)]
  · rw [if_neg hr, if_neg (by omega)]
    have hd : (12 < a ∧ b ≤ 12) = True := by simp [h1, h2]
    simp only [hd, if_true]

theorem parseSlashDate_mdy_of (a b y : ℕ) (ha : a ≤ 99) (hb : b ≤ 99) (hy : y ≤ 9999)
    (h1 : 12 < b) (h2 : a ≤ 12) :
    parseSlashDate (slashChars a b y) =
      if isValidYmd y a b then some (DateParse.parsed Family.mdy ⟨y, a, b⟩)
      else some DateParse.invalid := by
  rw [parseSlashDate_slashChars_eq a b y ha hb hy]
  by_cases hr : a < 1 ∨ 31 < a ∨ b < 1 ∨ 31 < b
  · rw [if_pos hr, isValidYmd_eq_false (by omega), if_neg (by simp)]
  · rw [if_neg hr, if_neg (by omega)]
    have hd : (12 < a ∧ b ≤ 12) = False := by simp; omega
    simp only [hd, if_false]

theorem parseSlashDate_range_invalid_of (a b y : ℕ) (ha : a ≤ 99) (hb : b ≤ 99) (hy : y ≤ 9999)
    (h : a < 1 ∨ 31 < a ∨ b < 1 ∨ 31 < b) :
    parseSlashDate (slashChars a b y) = some DateParse.invalid := by
  rw [parseSlashDate_slashChars_eq a b y ha hb hy, if_pos h]

theorem errCode_normalize_single_slash (a b y : ℕ) (opts : NormOptions)
    (ha : a ≤ 99) (hb : b ≤ 99) (hy : y ≤ 9999) (outcome : DateParse) (code : String)
    (hps : parseSlashDate (slashChars a b y) = some outcome)
    (hcode : (outcome = DateParse.ambiguous ∧ code = "DATE_AMBIGUOUS") ∨
      (outcome = DateParse.invalid ∧ code = "DATE_INVALID")) :
    errCode (normalizeDatesInRows [⟨some (String.mk (slashChars a b y))⟩] opts) = some code := by
  simp only [normalizeDatesInRows, normalizeLoop, stringData_mk, jsTrim_slashChars a b y ha,
    isEmpty_slashChars, Bool.false_eq_true, if_false, parseIsoDate_slashChars,
    parseIsoTimestamp_slashChars, parseMonthNameDate_slashChars a b y ha hb hy, hps,
    Option.none_orElse, Option.orElse_none]
  rcases hcode with ⟨ho, hc⟩ | ⟨ho, hc⟩ <;> subst ho <;> subst hc <;> rfl

/-- C2 (amended): for every two-digit/two-digit/four-digit slash value, (1)
if both tokens are between 1 and 12 the whole normalization batch fails with
`DATE_AMBIGUOUS` (a `00` token instead fails the 1–31 range check first, see
the counterexample); and (2)/(3) if exactly one token exceeds 12 that token
is always interpreted as the day — resolving day-first or month-first
accordingly — subject to real-calendar validation. -/
theorem c2_slash_disambiguation (a b y : ℕ) (opts : NormOptions)
    (ha : a ≤ 99) (hb : b ≤ 99) (hy : y ≤ 9999) :
    (1 ≤ a → a ≤ 12 → 1 ≤ b → b ≤ 12 →
      errCode (normalizeDatesInRows [⟨some (String.mk (slashChars a b y))⟩] opts) =
        some "DATE_AMBIGUOUS")
    ∧ (12 < a → b ≤ 12 →
        parseSlashDate (slashChars a b y) =
          if isValidYmd y b a then some (DateParse.parsed Family.dmy ⟨y, b, a⟩)
          else some DateParse.invalid)
    ∧ (12 < b → a ≤ 12 →
        parseSlashDate (slashChars a b y) =
          if isValidYmd y a b then some (DateParse.parsed Family.mdy ⟨y, a, b⟩)
          else some DateParse.invalid) := by
  refine ⟨fun h1 h2 h3 h4 => ?_, fun h1 h2 => ?_, fun h1 h2 => ?_⟩
  · exact errCode_normalize_single_slash a b y opts ha hb hy _ _
      (parseSlashDate_ambiguous_of a b y ha hb hy h1 h2 h3 h4) (Or.inl ⟨rfl, rfl⟩)
  · exact parseSlashDate_dmy_of a b y ha hb hy h1 h2
  · exact parseSlashDate_mdy_of a b y ha hb hy h1 h2

/-- C2 witness: the theorem applied at `05/06/2024` (ambiguous) and at
`23/05/2024` (day-first, 23 interpreted as the day). -/
theorem c2_slash_disambiguation_witness :
    ((1 ≤ 5 → 5 ≤ 12 → 1 ≤ 6 → 6 ≤ 12 →
      errCode (normalizeDatesInRows [⟨some (String.mk (slashChars 5 6 2024))⟩] {}) =
        some "DATE_AMBIGUOUS")
      ∧ (12 < 5 → 6 ≤ 12 →
          parseSlashDate (slashChars 5 6 2024) =
            if isValidYmd 2024 6 5 then some (DateParse.parsed Family.dmy ⟨2024, 6, 5⟩)
            else some DateParse.invalid)
      ∧ (12 < 6 → 5 ≤ 12 →
          parseSlashDate (slashChars 5 6 2024) =
            if isValidYmd 2024 5 6 then some (DateParse.parsed Family.mdy ⟨2024, 5, 6⟩)
            else some DateParse.invalid))
    ∧ (12 < 23 → 5 ≤ 12 →
        parseSlashDate (slashChars 23 5 2024) =
          if isValidYmd 2024 5 23 then some (DateParse.parsed Family.dmy ⟨2024, 5, 23⟩)
          else some DateParse.invalid) :=
  ⟨c2_slash_disambiguation 5 6 2024 {} (by decide) (by decide) (by decide),
    (c2_slash_disambiguation 23 5 2024 {} (by decide) (by decide) (by decide)).2.1⟩

/-- C4 (amended): a slash value with exactly one token above 12 that fails
real-calendar validation fails with `DATE_INVALID`, and so does a value with
a `00` token; but a value whose tokens are both in 1–31 with neither or both
exceeding 12 fails with `DATE_AMBIGUOUS` before any calendar validation (see
the counterexample for the both-above-12 case). -/
theorem c4_slash_invalid (a b y : ℕ) (opts : NormOptions)
    (ha : a ≤ 99) (hb : b ≤ 99) (hy : y ≤ 9999) :
    (12 < a → b ≤ 12 → isValidYmd y b a = false →
      errCode (normalizeDatesInRows [⟨some (String.mk (slashChars a b y))⟩] opts) =
        some "DATE_INVALID")
    ∧ (12 < b → a ≤ 12 → isValidYmd y a b = false →
        errCode (normalizeDatesInRows [⟨some (String.mk (slashChars a b y))⟩] opts) =
          some "DATE_INVALID")
    ∧ (a ≤ 12 → b ≤ 12 → a = 0 ∨ b = 0 →
        errCode (normalizeDatesInRows [⟨some (String.mk (slashChars a b y))⟩] opts) =
          some "DATE_INVALID") := by
  refine ⟨fun h1 h2 h3 => ?_, fun h1 h2 h3 => ?_, fun h1 h2 h3 => ?_⟩
  · refine errCode_normalize_single_slash a b y opts ha hb hy _ _ ?_ (Or.inr ⟨rfl, rfl⟩)
    rw [parseSlashDate_dmy_of a b y ha hb hy h1 h2, h3]
    simp
  · refine errCode_normalize_single_slash a b y opts ha hb hy _ _ ?_ (Or.inr ⟨rfl, rfl⟩)
    rw [parseSlashDate_mdy_of a b y ha hb hy h1 h2, h3]
    simp
  · exact errCode_normalize_single_slash a b y opts ha hb hy _ _
      (parseSlashDate_range_invalid_of a b y ha hb hy (by omega)) (Or.inr ⟨rfl, rfl⟩)

/-- C4 witness: the theorem applied at `31/02/2024` (February 31st, day-first
reading fails calendar validation) and at `00/05/2024` (a zero token). -/
theorem c4_slash_invalid_witness :
    (12 < 31 → 2 ≤ 12 → isValidYmd 2024 2 31 = false →
      errCode (normalizeDatesInRows [⟨some (String.mk (slashChars 31 2 2024))⟩] {}) =
        some "DATE_INVALID")
    ∧ (isValidYmd 2024 2 31 = false)
    ∧ (0 ≤ 12 → 5 ≤ 12 → 0 = 0 ∨ 5 = 0 →
        errCode (normalizeDatesInRows [⟨some (String.mk (slashChars 0 5 2024))⟩] {}) =
          some "DATE_INVALID") :=
  ⟨(c4_slash_invalid 31 2 2024 {} (by decide) (by decide) (by decide)).1,
    by decide,
    (c4_slash_invalid 0 5 2024 {} (by decide) (by decide) (by decide)).2.2⟩

/-! ### Generic scanning lemmas -/

theorem digitChar_ne_nondigit (n : ℕ) (h : n < 10) {c : Char} (hc : c.isDigit = false) :
    digitChar n ≠ c := by
  intro he
  have h1 := isDigit_digitChar n h
  rw [he] at h1
  simp [hc] at h1

theorem dropWhile_eq_self_of_forall {p : Char → Bool} :
    ∀ {l : List Char}, (∀ c ∈ l, p c = false) → l.dropWhile p = l
  | [], _ => rfl
  | c :: l, h => by
    rw [List.dropWhile_cons, h c (List.mem_cons_self c l)]
    simp

theorem takeWhile_eq_self_of_forall {p : Char → Bool} :
    ∀ {l : List Char}, (∀ c ∈ l, p c = true) → l.takeWhile p = l
  | [], _ => rfl
  | c :: l, h => by
    rw [List.takeWhile_cons, h c (List.mem_cons_self c l)]
    simp only [if_true]
    rw [takeWhile_eq_self_of_forall (fun d hd => h d (List.mem_cons_of_mem c hd))]

theorem dropWhile_eq_nil_of_forall {p : Char → Bool} :
    ∀ {l : List Char}, (∀ c ∈ l, p c = true) → l.dropWhile p = []
  | [], _ => rfl
  | c :: l, h => by
    rw [List.dropWhile_cons, h c (List.mem_cons_self c l)]
    simp only [if_true]
    exact dropWhile_eq_nil_of_forall (fun d hd => h d (List.mem_cons_of_mem c hd))

theorem jsTrim_eq_self_of_forall {l : List Char} (h : ∀ c ∈ l, isJsWs c = false) :
    jsTrim l = l := by
  unfold jsTrim jsTrimStart jsTrimEnd
  rw [dropWhile_eq_self_of_forall h,
    dropWhile_eq_self_of_forall (fun c hc => h c (List.mem_reverse.mp hc)),
    List.reverse_reverse]

/-! ### All-digit strings through `Number` -/

theorem jsStringToNumber_digits (ds : List ℕ) (hne : ds ≠ []) (hd : ∀ d ∈ ds, d < 10) :
    jsStringToNumber (ds.map digitChar) = .fin ((natOfDigits (ds.map digitChar) : ℕ) : ℚ) := by
  have hnotws : ∀ c ∈ ds.map digitChar, isJsWs c = false := by
    intro c hc
    obtain ⟨d, hdm, rfl⟩ := List.mem_map.mp hc
    exact isJsWs_digitChar d (hd d hdm)
  have htrim : jsTrim (ds.map digitChar) = ds.map digitChar := jsTrim_eq_self_of_forall hnotws
  have hdigits : ∀ c ∈ ds.map digitChar, c.isDigit = true := by
    intro c hc
    obtain ⟨d, hdm, rfl⟩ := List.mem_map.mp hc
    exact isDigit_digitChar d (hd d hdm)
  have htail : parseSignedDec 1 false (ds.map digitChar) =
      .fin ((natOfDigits (ds.map digitChar) : ℕ) : ℚ) := by
    obtain ⟨d0, ds', rfl⟩ : ∃ d0 ds', ds = d0 :: ds' := by
      cases ds with
      | nil => exact absurd rfl hne
      | cons d0 ds' => exact ⟨d0, ds', rfl⟩
    unfold parseSignedDec
    rw [if_neg]
    · unfold parseDecimalTail
      rw [takeWhile_eq_self_of_forall hdigits, dropWhile_eq_nil_of_forall hdigits]
      simp [natOfDigits]
    · intro he
      have : digitChar d0 = 'I' := by
        have := congrArg (fun l => l.headD ' ') he
        simpa using this
      exact digitChar_ne_nondigit d0 (hd d0 (List.mem_cons_self d0 ds')) (by decide) this
  obtain ⟨d0, ds', rfl⟩ : ∃ d0 ds', ds = d0 :: ds' := by
    cases ds with
    | nil => exact absurd rfl hne
    | cons d0 ds' => exact ⟨d0, ds', rfl⟩
  have hd0 := hd d0 (List.mem_cons_self d0 ds')
  unfold jsStringToNumber
  rw [htrim]
  split
  · next heq => simp at heq
  · next heq =>
    exfalso
    simp only [List.map_cons, List.cons.injEq] at heq
    rcases ds' with _ | ⟨d1, tl⟩
    · simp at heq
    · simp only [List.map_cons, List.cons.injEq] at heq
      exact digitChar_ne_nondigit d1 (hd d1 (by simp)) (by decide) heq.2.1
  · next heq =>
    exfalso
    simp only [List.map_cons, List.cons.injEq] at heq
    rcases ds' with _ | ⟨d1, tl⟩
    · simp at heq
    · simp only [List.map_cons, List.cons.injEq] at heq
      exact digitChar_ne_nondigit d1 (hd d1 (by simp)) (by decide) heq.2.1
  · next heq =>
    exfalso
    simp only [List.map_cons, List.cons.injEq] at heq
    rcases ds' with _ | ⟨d1, tl⟩
    · simp at heq
    · simp only [List.map_cons, List.cons.injEq] at heq
      exact digitChar_ne_nondigit d1 (hd d1 (by simp)) (by decide) heq.2.1
  · next heq =>
    exfalso
    simp only [List.map_cons, List.cons.injEq] at heq
    rcases ds' with _ | ⟨d1, tl⟩
    · simp at heq
    · simp only [List.map_cons, List.cons.injEq] at heq
      exact digitChar_ne_nondigit d1 (hd d1 (by simp)) (by decide) heq.2.1
  · next heq =>
    exfalso
    simp only [List.map_cons, List.cons.injEq] at heq
    rcases ds' with _ | ⟨d1, tl⟩
    · simp at heq
    · simp only [List.map_cons, List.cons.injEq] at heq
      exact digitChar_ne_nondigit d1 (hd d1 (by simp)) (by decide) heq.2.1
  · next heq =>
    exfalso
    simp only [List.map_cons, List.cons.injEq] at heq
    rcases ds' with _ | ⟨d1, tl⟩
    · simp at heq
    · simp only [List.map_cons, List.cons.injEq] at heq
      exact digitChar_ne_nondigit d1 (hd d1 (by simp)) (by decide) heq.2.1
  · next heq =>
    exfalso
    simp only [List.map_cons, List.cons.injEq] at heq
    exact digitChar_ne_nondigit d0 hd0 (by decide) heq.1
  · next heq =>
    exfalso
    simp only [List.map_cons, List.cons.injEq] at heq
    exact digitChar_ne_nondigit d0 hd0 (by decide) heq.1
  · next => exact htail

/-! ### Comma-separated digit groups -/

theorem stripCommas_commaGroups :
    ∀ gs : List (List ℕ), (∀ g ∈ gs, ∀ d ∈ g, d < 10) →
      stripCommas (commaGroups gs) = (gs.flatten).map digitChar
  | [], _ => rfl
  | [g], h => by
    simp only [commaGroups, List.flatten, stripCommas]
    rw [List.filter_eq_self.mpr]
    · simp
    · intro c hc
      obtain ⟨d, hdm, rfl⟩ := List.mem_map.mp hc
      simpa using digitChar_ne_comma d (h g (by simp) d hdm)
  | g :: g2 :: gs, h => by
    simp only [commaGroups, stripCommas, List.filter_append, List.filter_cons]
    have hg : List.filter (fun c => decide (c ≠ ',')) (g.map digitChar) = g.map digitChar := by
      rw [List.filter_eq_self.mpr]
      intro c hc
      obtain ⟨d, hdm, rfl⟩ := List.mem_map.mp hc
      simpa using digitChar_ne_comma d (h g (by simp) d hdm)
    have ih := stripCommas_commaGroups (g2 :: gs) (fun g' hg' => h g' (by simp [hg']))
    simp only [stripCommas] at ih
    simp only [ne_eq, decide_not] at hg ih
    simp [hg, ih]

theorem mem_commaGroups_nonws :
    ∀ gs : List (List ℕ), (∀ g ∈ gs, ∀ d ∈ g, d < 10) →
      ∀ c ∈ commaGroups gs, isJsWs c = false
  | [], _, c, hc => by simp [commaGroups] at hc
  | [g], h, c, hc => by
    simp only [commaGroups] at hc
    obtain ⟨d, hdm, rfl⟩ := List.mem_map.mp hc
    exact isJsWs_digitChar d (h g (by simp) d hdm)
  | g :: g2 :: gs, h, c, hc => by
    simp only [commaGroups, List.mem_append, List.mem_cons] at hc
    rcases hc with hc | hc | hc
    · obtain ⟨d, hdm, rfl⟩ := List.mem_map.mp hc
      exact isJsWs_digitChar d (h g (by simp) d hdm)
    · subst hc; decide
    · exact mem_commaGroups_nonws (g2 :: gs) (fun g' hg' => h g' (by simp [hg'])) c hc

theorem commaGroups_ne_nil {gs : List (List ℕ)} (h1 : gs ≠ []) (h2 : ∀ g ∈ gs, g ≠ []) :
    commaGroups gs ≠ [] := by
  match gs, h1 with
  | [g], _ =>
    simp only [commaGroups, ne_eq, List.map_eq_nil_iff]
    exact h2 g (by simp)
  | g :: g2 :: gs, _ =>
    simp only [commaGroups]
    intro hc
    rw [List.append_eq_nil] at hc
    exact absurd hc.2 (by simp)

theorem join_ne_nil {gs : List (List ℕ)} (h1 : gs ≠ []) (h2 : ∀ g ∈ gs, g ≠ []) :
    gs.flatten ≠ [] := by
  match gs, h1 with
  | g :: gs, _ =>
    simp only [List.flatten_cons, ne_eq, List.append_eq_nil, not_and]
    intro hg
    exact absurd hg (h2 g (by simp))

theorem natOfDigits_map_digitChar :
    ∀ (ds : List ℕ) (acc : ℕ), (∀ d ∈ ds, d < 10) →
      List.foldl (fun n c => 10 * n + digitVal c) acc (ds.map digitChar) =
        ds.foldl (fun n d => 10 * n + d) acc
  | [], _, _ => rfl
  | d :: ds, acc, h => by
    simp only [List.map_cons, List.foldl_cons, digitVal_digitChar d (h d (by simp))]
    exact natOfDigits_map_digitChar ds _ (fun d' hd' => h d' (by simp [hd']))

/-- C9: numeric coercion deletes every comma anywhere in the value, not only
in thousands positions: any comma-separated digit groups coerce to the number
denoted by the concatenated digits (so `"1,2,3"` is accepted as `123`), and
the string handed to `Number` is exactly the digits with all commas gone. -/
theorem c9_all_commas_stripped (gs : List (List ℕ)) (f : String) (i : ℕ)
    (h1 : gs ≠ []) (h2 : ∀ g ∈ gs, g ≠ []) (h3 : ∀ g ∈ gs, ∀ d ∈ g, d < 10) :
    coerceNumber (some (String.mk (commaGroups gs))) f i =
      .ok (some ((gs.flatten.foldl (fun n d => 10 * n + d) 0 : ℕ) : ℚ))
    ∧ stripCommas (commaGroups gs) = (gs.flatten).map digitChar := by
  have hcg := stripCommas_commaGroups gs h3
  refine ⟨?_, hcg⟩
  have hjoin : ∀ d ∈ gs.flatten, d < 10 := by
    intro d hd
    obtain ⟨g, hg, hdg⟩ := List.mem_flatten.mp hd
    exact h3 g hg d hdg
  have htrim : jsTrim (commaGroups gs) = commaGroups gs :=
    jsTrim_eq_self_of_forall (mem_commaGroups_nonws gs h3)
  unfold coerceNumber
  simp only [stringData_mk, htrim,
    List.isEmpty_eq_false.mpr (commaGroups_ne_nil h1 h2), Bool.false_eq_true, if_false, hcg,
    jsStringToNumber_digits gs.flatten (join_ne_nil h1 h2) hjoin]
  rw [natOfDigits, natOfDigits_map_digitChar gs.flatten 0 hjoin]

/-- C9 witness: the theorem applied at the groups `1`, `2`, `3`, i.e. the
cell value `"1,2,3"`, which coerces to `123`. -/
theorem c9_all_commas_stripped_witness :
    String.mk (commaGroups [[1], [2], [3]]) = "1,2,3"
    ∧ (coerceNumber (some (String.mk (commaGroups [[1], [2], [3]]))) "total_orders" 0 =
        .ok (some (([[1], [2], [3]].flatten.foldl (fun n d => 10 * n + d) 0 : ℕ) : ℚ))
      ∧ stripCommas (commaGroups [[1], [2], [3]]) = ([[1], [2], [3]].flatten).map digitChar)
    ∧ ([[1], [2], [3]].flatten.foldl (fun n d => 10 * n + d) 0 : ℕ) = 123 :=
  ⟨by decide,
    c9_all_commas_stripped [[1], [2], [3]] "total_orders" 0 (by decide) (by decide) (by decide),
    by decide⟩

theorem jsTrim_cons_ws {c : Char} (hc : isJsWs c = true) (x : List Char) :
    jsTrim (c :: x) = jsTrim x := by
  unfold jsTrim jsTrimStart
  rw [List.dropWhile_cons, if_pos hc]

theorem jsTrimEnd_append_ws {c : Char} (hc : isJsWs c = true) (x : List Char) :
    jsTrimEnd (x ++ [c]) = jsTrimEnd x := by
  unfold jsTrimEnd
  rw [List.reverse_append]
  simp [List.dropWhile_cons, hc]

theorem jsTrim_append_ws {d : Char} (hd : isJsWs d = true) :
    ∀ x : List Char, jsTrim (x ++ [d]) = jsTrim x
  | [] => by
    unfold jsTrim jsTrimStart jsTrimEnd
    simp [List.dropWhile_cons, hd]
  | c :: t => by
    by_cases hc : isJsWs c = true
    · rw [List.cons_append, jsTrim_cons_ws hc, jsTrim_cons_ws hc]
      exact jsTrim_append_ws hd t
    · rw [Bool.not_eq_true] at hc
      rw [List.cons_append]
      unfold jsTrim jsTrimStart
      rw [dropWhile_cons_of_neg hc, dropWhile_cons_of_neg hc]
      have h2 : c :: (t ++ [d]) = (c :: t) ++ [d] := by simp
      rw [h2, jsTrimEnd_append_ws hd]

/-- C7 (amended): `coerceNumber` returns null for absent and blank cells;
trims and strips commas and hands the residue to `Number`; when that value is
not finite the parse fails with code `CSV_INVALID_NUMBER` (the spec's name
drops the `CSV_` prefix — see the counterexample) naming the field and row;
a successful coercion always returns the finite parsed number — never a
substituted zero; and a non-numeric cell inside a full orders CSV fails the
whole parse with the same code. -/
theorem c7_number_coercion (s : String) (f : String) (i : ℕ) :
    coerceNumber none f i = .ok none
    ∧ ((jsTrim s.data).isEmpty = true → coerceNumber (some s) f i = .ok none)
    ∧ ((jsTrim s.data).isEmpty = false →
        (jsStringToNumber (stripCommas (jsTrim s.data))).isFinite = false →
        coerceNumber (some s) f i = .error
          { code := "CSV_INVALID_NUMBER",
            message := "Invalid number for " ++ f ++ " at row " ++ toString (i + 1) ++ ".",
            details :=
              some
                { rowIndex := some i, value := some (String.mk (jsTrim s.data)),
                  fieldName := some f } })
    ∧ (∀ q, coerceNumber (some s) f i = .ok (some q) →
        jsStringToNumber (stripCommas (jsTrim s.data)) = .fin q)
    ∧ coerceNumber (some (String.mk (' ' :: s.data ++ [' ']))) f i = coerceNumber (some s) f i
    ∧ errCode (parseCsvText (some "date,total_orders\n1,10\n2,11\n3,12\n4,abc\n5,14\n6,15\n7,16")
        ⟨some "orders"⟩) = some "CSV_INVALID_NUMBER" := by
  refine ⟨rfl, ?_, ?_, ?_, ?_, ?_⟩
  · intro h
    simp only [coerceNumber, h, if_true]
  · intro h hf
    simp only [coerceNumber, h, Bool.false_eq_true, if_false]
    rcases hjs : jsStringToNumber (stripCommas (jsTrim s.data)) with q | _ | _ | _
    · rw [hjs] at hf
      exact absurd hf (by simp [JsNumber.isFinite])
    · rfl
    · rfl
    · rfl
  · intro q h
    by_cases he : (jsTrim s.data).isEmpty
    · simp only [coerceNumber, he, if_true] at h
      exact absurd h (by simp)
    · simp only [coerceNumber, Bool.not_eq_true] at he
      simp only [coerceNumber, he, Bool.false_eq_true, if_false] at h
      rcases hjs : jsStringToNumber (stripCommas (jsTrim s.data)) with q2 | _ | _ | _ <;>
        rw [hjs] at h <;> simp at h
      rw [h]
  · simp only [coerceNumber, stringData_mk]
    rw [show (' ' :: s.data ++ [' ']) = (' ' :: s.data) ++ [' '] from rfl,
      jsTrim_append_ws (by decide), jsTrim_cons_ws (by decide)]
  · simp +decide only [parseCsvText, stripBom, normalizeNewlines, splitOnChar, jsTrim, jsTrimStart,
      jsTrimEnd, isJsWs, detectDelimiter, parseCsvLine, parseCsvLineGo, modeOfCounts, alistIncr,
      List.foldl, List.map, List.filter, List.take, List.length, List.lookup, List.reverse,
      List.reverseAux, List.dropWhile, List.isEmpty]
    norm_num
    simp +decide only [normalizeHeaderToken, collapseRuns, dedupHeaders, alistSetNat, buildRows,
      buildRow, rowGet, pickColumn, ordersCanonLoop, coerceNumber, jsStringToNumber, parseSignedDec,
      parseDecimalTail, stripCommas, natOfDigits, digitVal, errCode, List.lookup, List.map,
      List.foldl, List.filter, List.range, jsTrim, jsTrimStart, jsTrimEnd, isJsWs, List.reverse,
      List.reverseAux, List.dropWhile, List.takeWhile, List.getD, List.headD, List.tail]

/-- C7 witness: the theorem applied at a blank cell, at the non-numeric cell
`"abc"` (error code `CSV_INVALID_NUMBER`, field and row in the details), and
the never-zero-on-success guarantee at `"7"`. -/
theorem c7_number_coercion_witness :
    coerceNumber (some "   ") "f" 1 = .ok none
    ∧ coerceNumber (some "abc") "f" 1 = .error
        { code := "CSV_INVALID_NUMBER",
          message := "Invalid number for " ++ "f" ++ " at row " ++ toString (1 + 1) ++ ".",
          details :=
            some
              { rowIndex := some 1, value := some (String.mk (jsTrim "abc".data)),
                fieldName := some "f" } }
    ∧ (∀ q, coerceNumber (some "7") "f" 1 = .ok (some q) →
        jsStringToNumber (stripCommas (jsTrim "7".data)) = .fin q) :=
  ⟨(c7_number_coercion "   " "f" 1).2.1 (by decide),
    (c7_number_coercion "abc" "f" 1).2.2.1 (by decide) (by decide),
    (c7_number_coercion "7" "f" 1).2.2.2.1⟩

/-! ### Stable-sort facts -/

theorem insertLe_perm {α : Type} (le : α → α → Bool) (x : α) :
    ∀ l : List α, (insertLe le x l).Perm (x :: l)
  | [] => List.Perm.refl _
  | y :: ys => by
    unfold insertLe
    by_cases h : le x y = true
    · rw [if_pos h]
    · rw [if_neg h]
      exact (List.Perm.cons y (insertLe_perm le x ys)).trans (List.Perm.swap x y ys)

theorem jsSort_perm {α : Type} (le : α → α → Bool) : ∀ l : List α, (jsSort le l).Perm l
  | [] => List.Perm.refl _
  | x :: xs =>
    (insertLe_perm le x (jsSort le xs)).trans (List.Perm.cons x (jsSort_perm le xs))

theorem mem_jsSort {α : Type} (le : α → α → Bool) (l : List α) (a : α) :
    a ∈ jsSort le l ↔ a ∈ l := (jsSort_perm le l).mem_iff

/-! ### The outward search of `findNearestWeather` -/

theorem findNearestGo_succ (m : List (ℤ × DailyWeather)) (d : ℤ) (rem offset : ℕ)
    (h1 : m.lookup (d - (offset : ℤ)) = none) (h2 : m.lookup (d + (offset : ℤ)) = none) :
    findNearestGo m d (rem + 1) offset = findNearestGo m d rem (offset + 1) := by
  conv_lhs => rw [findNearestGo]
  rw [h1, h2]

theorem findNearestGo_skip (m : List (ℤ × DailyWeather)) (d : ℤ) :
    ∀ (s rem offset : ℕ), s ≤ rem →
      (∀ k : ℕ, offset ≤ k → k < offset + s →
        m.lookup (d - (k : ℤ)) = none ∧ m.lookup (d + (k : ℤ)) = none) →
      findNearestGo m d rem offset = findNearestGo m d (rem - s) (offset + s)
  | 0, rem, offset, _, _ => by simp
  | s + 1, rem, offset, hs, h => by
    obtain ⟨rem2, rfl⟩ : ∃ rem2, rem = rem2 + 1 := ⟨rem - 1, by omega⟩
    have h0 := h offset (le_refl _) (by omega)
    have hrec := findNearestGo_skip m d s rem2 (offset + 1) (by omega)
      (fun k hk1 hk2 => h k (by omega) (by omega))
    rw [findNearestGo_succ m d rem2 offset h0.1 h0.2, hrec,
      show rem2 - s = rem2 + 1 - (s + 1) from by omega,
      show offset + 1 + s = offset + (s + 1) from by omega]

theorem findNearestWeather_prev (m : List (ℤ × DailyWeather)) (d : ℤ) (w : DailyWeather)
    (maxGap : ℕ) (hg : 1 ≤ maxGap) (h0 : m.lookup d = none)
    (h1 : m.lookup (d - 1) = some w) :
    findNearestWeather d m maxGap = some (w, true) := by
  unfold findNearestWeather
  rw [h0]
  obtain ⟨g2, rfl⟩ : ∃ g2, maxGap = g2 + 1 := ⟨maxGap - 1, by omega⟩
  conv_lhs => rw [findNearestGo]
  have e : d - ((1 : ℕ) : ℤ) = d - 1 := by norm_num
  rw [e, h1]

theorem findNearestWeather_next_at (m : List (ℤ × DailyWeather)) (d : ℤ) (w2 : DailyWeather)
    (j maxGap : ℕ) (hj : 1 ≤ j) (hjg : j ≤ maxGap) (h0 : m.lookup d = none)
    (hnone : ∀ k : ℕ, 1 ≤ k → k < j →
      m.lookup (d - (k : ℤ)) = none ∧ m.lookup (d + (k : ℤ)) = none)
    (hprev : m.lookup (d - (j : ℤ)) = none) (hnext : m.lookup (d + (j : ℤ)) = some w2) :
    findNearestWeather d m maxGap = some (w2, true) := by
  unfold findNearestWeather
  rw [h0]
  have hskip := findNearestGo_skip m d (j - 1) maxGap 1 (by omega)
    (fun k hk1 hk2 => hnone k hk1 (by omega))
  rw [hskip]
  have e1 : 1 + (j - 1) = j := by omega
  rw [e1]
  obtain ⟨r2, hr⟩ : ∃ r2, maxGap - (j - 1) = r2 + 1 := ⟨maxGap - j, by omega⟩
  rw [hr]
  conv_lhs => rw [findNearestGo]
  rw [hprev, hnext]

/-! ### Merged-row provenance -/

theorem mem_mergeLoop (m : List (ℤ × DailyWeather)) (g : ℕ) :
    ∀ (l : List (ℤ × ℚ)) (r : MergedRecord),
      r ∈ (mergeLoop m g l).1 ↔
        ∃ o ∈ l, ∃ w imp, findNearestWeather o.1 m g = some (w, imp) ∧ r = mkMergedRecord o w imp
  | [], r => by simp [mergeLoop]
  | o :: rest, r => by
    unfold mergeLoop
    rcases hf : findNearestWeather o.1 m g with _ | ⟨w, imp⟩
    · simp only [List.mem_cons]
      rw [mem_mergeLoop m g rest r]
      constructor
      · rintro ⟨o2, ho2, hrest⟩
        exact ⟨o2, by simp [ho2], hrest⟩
      · rintro ⟨o2, ho2, w2, imp2, hf2, hr2⟩
        rcases ho2 with rfl | ho2
        · rw [hf] at hf2
          exact absurd hf2 (by simp)
        · exact ⟨o2, ho2, w2, imp2, hf2, hr2⟩
    · simp only [List.mem_cons]
      rw [mem_mergeLoop m g rest r]
      constructor
      · rintro (rfl | ⟨o2, ho2, hrest⟩)
        · exact ⟨o, by simp, w, imp, hf, rfl⟩
        · exact ⟨o2, by simp [ho2], hrest⟩
      · rintro ⟨o2, ho2, w2, imp2, hf2, hr2⟩
        rcases ho2 with rfl | ho2
        · rw [hf] at hf2
          left
          rcases hf2 with ⟨rfl, rfl⟩
          exact hr2
        · right
          exact ⟨o2, ho2, w2, imp2, hf2, hr2⟩

theorem merge_ok_rows (orderRows : List OrderRowM) (weatherRows : List WeatherRowM)
    (options : MergeOptions) (rows : List MergedRecord) (ws : List String)
    (hok : mergeOrdersWithWeather orderRows weatherRows options = .ok (rows, ws)) :
    ∀ r, r ∈ rows ↔
      ∃ o ∈ aggregateOrdersDaily orderRows, ∃ w imp,
        findNearestWeather o.1 (aggregateWeatherDaily weatherRows)
          (options.maxGapDays.getD 3) = some (w, imp) ∧ r = mkMergedRecord o w imp := by
  intro r
  unfold mergeOrdersWithWeather at hok
  by_cases hempty : (jsSort (fun a b => a.date_iso ≤ b.date_iso)
      (mergeLoop (aggregateWeatherDaily weatherRows) (options.maxGapDays.getD 3)
        (aggregateOrdersDaily orderRows)).1).isEmpty
  · rw [if_pos hempty] at hok
    exact absurd hok (by simp)
  · rw [if_neg hempty] at hok
    have hrows : rows = jsSort (fun a b => a.date_iso ≤ b.date_iso)
        (mergeLoop (aggregateWeatherDaily weatherRows) (options.maxGapDays.getD 3)
          (aggregateOrdersDaily orderRows)).1 := by
      have := hok
      simp only [Except.ok.injEq, Prod.mk.injEq] at this
      exact this.1.symm
    rw [hrows, mem_jsSort,
      mem_mergeLoop (aggregateWeatherDaily weatherRows) (options.maxGapDays.getD 3)
        (aggregateOrdersDaily orderRows) r]

/-- C5: in the merge, a date with no exact weather searches outward day by
day, checking `date-1` before `date+1` at each distance and taking the first
match with `imputed_weather = true`.  Part one: when weather exists at `d-1`
(whatever `d+1` holds), every merged row for `d` carries `d-1`'s values —in
particular the tie at distance one always resolves to the previous day.
Part two: the first match wins in the interleaved order — `d+j` is used
exactly when every nearer candidate and `d-j` are absent. -/
theorem c5_imputation_tie_break (orderRows : List OrderRowM) (weatherRows : List WeatherRowM)
    (options : MergeOptions) (rows : List MergedRecord) (ws : List String) (d : ℤ)
    (hok : mergeOrdersWithWeather orderRows weatherRows options = .ok (rows, ws)) :
    (∀ w : DailyWeather,
      (aggregateWeatherDaily weatherRows).lookup d = none →
      (aggregateWeatherDaily weatherRows).lookup (d - 1) = some w →
      1 ≤ options.maxGapDays.getD 3 →
      ∀ r ∈ rows, r.date_iso = d →
        r.temperature_c = w.temperature_c ∧ r.rainfall_mm = w.rainfall_mm ∧
          r.humidity_pct = w.humidity_pct ∧ r.imputed_weather = true)
    ∧ (∀ (j : ℕ) (w2 : DailyWeather), 1 ≤ j → j ≤ options.maxGapDays.getD 3 →
        (aggregateWeatherDaily weatherRows).lookup d = none →
        (∀ k : ℕ, 1 ≤ k → k < j →
          (aggregateWeatherDaily weatherRows).lookup (d - (k : ℤ)) = none ∧
            (aggregateWeatherDaily weatherRows).lookup (d + (k : ℤ)) = none) →
        (aggregateWeatherDaily weatherRows).lookup (d - (j : ℤ)) = none →
        (aggregateWeatherDaily weatherRows).lookup (d + (j : ℤ)) = some w2 →
        findNearestWeather d (aggregateWeatherDaily weatherRows)
          (options.maxGapDays.getD 3) = some (w2, true)) := by
  constructor
  · intro w h0 hprev hg r hr hd
    have hmem := (merge_ok_rows orderRows weatherRows options rows ws hok r).mp hr
    obtain ⟨o, ho, w2, imp, hf, rfl⟩ := hmem
    have hdate : o.1 = d := hd
    rw [hdate] at hf
    rw [findNearestWeather_prev (aggregateWeatherDaily weatherRows) d w
      (options.maxGapDays.getD 3) hg h0 hprev] at hf
    rcases hf with ⟨rfl, rfl⟩
    exact ⟨rfl, rfl, rfl, rfl⟩
  · intro j w2 hj hjg h0 hnone hprev hnext
    exact findNearestWeather_next_at (aggregateWeatherDaily weatherRows) d w2 j
      (options.maxGapDays.getD 3) hj hjg h0 hnone hprev hnext

/-- C5 witness: orders on day 10 only, weather at days 9 and 11 only — the
merged row for day 10 takes day 9's values with `imputed_weather = true`. -/
theorem c5_imputation_tie_break_witness :
    (⟨10, 5, 5, 0, none, true⟩ : MergedRecord).temperature_c = (5 : ℚ)
    ∧ (⟨10, 5, 5, 0, none, true⟩ : MergedRecord).rainfall_mm = (0 : ℚ)
    ∧ (⟨10, 5, 5, 0, none, true⟩ : MergedRecord).humidity_pct = (none : Option ℚ)
    ∧ (⟨10, 5, 5, 0, none, true⟩ : MergedRecord).imputed_weather = true := by
  have hagg : aggregateWeatherDaily
      [⟨some 9, .num 5, .num 0, .null⟩, ⟨some 11, .num 7, .num 0, .null⟩] =
      [(9, ⟨5, 0, none⟩), (11, ⟨7, 0, none⟩)] := by
    simp +decide [aggregateWeatherDaily, alistUpdW, wBucketStep, List.lookup]
  have hok : mergeOrdersWithWeather [⟨some 10, .num 5⟩]
      [⟨some 9, .num 5, .num 0, .null⟩, ⟨some 11, .num 7, .num 0, .null⟩] {} =
      .ok ([{ date_iso := 10, total_orders := 5, temperature_c := 5, rainfall_mm := 0,
              humidity_pct := none, imputed_weather := true }], []) := by
    simp +decide [mergeOrdersWithWeather, aggregateOrdersDaily, aggregateWeatherDaily, alistAddQ,
      alistUpdW, wBucketStep, JsVal.toNumber, jsSort, insertLe, mergeLoop, findNearestWeather,
      findNearestGo, List.lookup, mkMergedRecord]
  exact (c5_imputation_tie_break [⟨some 10, .num 5⟩]
      [⟨some 9, .num 5, .num 0, .null⟩, ⟨some 11, .num 7, .num 0, .null⟩] {}
      [{ date_iso := 10, total_orders := 5, temperature_c := 5, rainfall_mm := 0,
           humidity_pct := none, imputed_weather := true }] [] 10 hok).1 ⟨5, 0, none⟩
    (by rw [hagg]; decide) (by rw [hagg]; decide) (by decide)
    ⟨10, 5, 5, 0, none, true⟩ (List.mem_singleton.mpr rfl) rfl

/-! ### Metrics: the non-rainy path of the KPI averages -/

theorem length_foldl_snd {α β γ : Type} (f : β × List γ → α → β × List γ)
    (hf : ∀ acc x, ∃ e, (f acc x).2 = acc.2 ++ [e]) :
    ∀ (l : List α) (acc : β × List γ),
      ((l.foldl f acc).2).length = acc.2.length + l.length := by
  intro l
  induction l with
  | nil => intro acc; simp
  | cons x xs ih =>
    intro acc
    rw [List.foldl_cons, ih]
    obtain ⟨e, he⟩ := hf acc x
    rw [he]
    simp
    omega

theorem computeMovingAverage_length (values : List JsNumber) (w : ℕ) :
    (computeMovingAverage values w).length = values.length := by
  unfold computeMovingAverage
  split
  · simp
  · exact (length_foldl_snd _ (fun acc iv => ⟨_, rfl⟩) values.enum
      ((JsNumber.fin 0, []) : JsNumber × List (Option JsNumber))).trans (by simp)

theorem mem_zipWith_ex {α β γ : Type} {f : α → β → γ} {x : γ} :
    ∀ {l₁ : List α} {l₂ : List β}, x ∈ List.zipWith f l₁ l₂ →
      ∃ a ∈ l₁, ∃ b ∈ l₂, x = f a b := by
  intro l₁
  induction l₁ with
  | nil => intro l₂ h; simp at h
  | cons a as ih =>
    intro l₂ h
    cases l₂ with
    | nil => simp at h
    | cons b bs =>
      rw [List.zipWith_cons_cons, List.mem_cons] at h
      rcases h with h | h
      · exact ⟨a, by simp, b, by simp, h⟩
      · obtain ⟨a', ha', b', hb', hx⟩ := ih h
        exact ⟨a', by simp [ha'], b', by simp [hb'], hx⟩

theorem map_zipWith_eq {α β γ δ : Type} (f : α → β → γ) (g : γ → δ) (h : α → δ)
    (hgf : ∀ a b, g (f a b) = h a) :
    ∀ (l₁ : List α) (l₂ : List β), l₂.length = l₁.length →
      (List.zipWith f l₁ l₂).map g = l₁.map h := by
  intro l₁
  induction l₁ with
  | nil => intro l₂ _; simp
  | cons a as ih =>
    intro l₂ hlen
    cases l₂ with
    | nil => simp at hlen
    | cons b bs =>
      rw [List.zipWith_cons_cons, List.map_cons, List.map_cons, hgf,
        ih bs (by simpa using hlen)]

theorem finPart_of_isFiniteV (v : JsVal) (hv : v.isFiniteV = true) :
    ∃ q, v.finPart = some q := by
  cases v with
  | num q => exact ⟨q, rfl⟩
  | nan => simp [JsVal.isFiniteV] at hv
  | inf => simp [JsVal.isFiniteV] at hv
  | ninf => simp [JsVal.isFiniteV] at hv
  | null => simp [JsVal.isFiniteV] at hv
  | undef => simp [JsVal.isFiniteV] at hv

/-- C6: for every non-empty merged input whose rows all have finite order
counts and are all non-rainy at the effective threshold, the metrics engine
succeeds with `rainyDayAvg = null` and `percentIncrease = null` (never `NaN`
and never `0`) while `nonRainyDayAvg` is a defined number. -/
theorem c6_division_by_zero_safety (sqrtFn : ℚ → ℚ) (mergedRows : List MetricsRow)
    (options : MetricsOptions)
    (hne : mergedRows ≠ [])
    (hfin : ∀ r ∈ mergedRows, r.total_orders.isFiniteV = true)
    (hnr : ∀ r ∈ mergedRows, rowIsRainy (options.rainThresholdMm.getD 1) r = false) :
    (calculateMetricsAndCharts sqrtFn mergedRows options).map
        (fun out => (out.kpis.rainyDayAvg, out.kpis.percentIncrease,
          out.kpis.nonRainyDayAvg.isSome)) = .ok (none, none, true) := by
  have hcond : ¬(mergedRows.isEmpty = true) := by
    simp only [List.isEmpty_iff]
    exact hne
  have hsrtlen : (jsSort (fun a b : MetricsRow => a.date_iso ≤ b.date_iso) mergedRows).length
      = mergedRows.length := (jsSort_perm _ mergedRows).length_eq
  have hsrtne : jsSort (fun a b : MetricsRow => a.date_iso ≤ b.date_iso) mergedRows ≠ [] := by
    intro h
    rw [h, List.length_nil] at hsrtlen
    exact hne (List.length_eq_zero.mp hsrtlen.symm)
  have hmavlen : (computeMovingAverage
        ((jsSort (fun a b : MetricsRow => a.date_iso ≤ b.date_iso) mergedRows).map
          (fun r => r.total_orders.toNumber)) 7).length
      = (jsSort (fun a b : MetricsRow => a.date_iso ≤ b.date_iso) mergedRows).length := by
    rw [computeMovingAverage_length, List.length_map]
  have hallfalse : ∀ (p25 p75 : Option ℚ) (mavg : List (Option JsNumber)) (e : EnrichedRow),
      e ∈ enrichRows (options.rainThresholdMm.getD 1) p25 p75
          (jsSort (fun a b : MetricsRow => a.date_iso ≤ b.date_iso) mergedRows) mavg →
      e.is_rainy = false := by
    intro p25 p75 mavg e he
    unfold enrichRows at he
    obtain ⟨r, hr, ma, hma, rfl⟩ := mem_zipWith_ex he
    exact hnr r ((mem_jsSort _ _ _).mp hr)
  have hfilR : ∀ (p25 p75 : Option ℚ) (mavg : List (Option JsNumber)),
      (enrichRows (options.rainThresholdMm.getD 1) p25 p75
          (jsSort (fun a b : MetricsRow => a.date_iso ≤ b.date_iso) mergedRows) mavg).filter
        (fun r => r.is_rainy) = [] := by
    intro p25 p75 mavg
    rw [List.filter_eq_nil_iff]
    intro e he
    simp [hallfalse p25 p75 mavg e he]
  have hfilNR : ∀ (p25 p75 : Option ℚ) (mavg : List (Option JsNumber)),
      (enrichRows (options.rainThresholdMm.getD 1) p25 p75
          (jsSort (fun a b : MetricsRow => a.date_iso ≤ b.date_iso) mergedRows) mavg).filter
        (fun r => ¬r.is_rainy)
      = enrichRows (options.rainThresholdMm.getD 1) p25 p75
          (jsSort (fun a b : MetricsRow => a.date_iso ≤ b.date_iso) mergedRows) mavg := by
    intro p25 p75 mavg
    rw [List.filter_eq_self]
    intro e he
    simp [hallfalse p25 p75 mavg e he]
  have hmap : ∀ (p25 p75 : Option ℚ),
      (enrichRows (options.rainThresholdMm.getD 1) p25 p75
          (jsSort (fun a b : MetricsRow => a.date_iso ≤ b.date_iso) mergedRows)
          (computeMovingAverage
            ((jsSort (fun a b : MetricsRow => a.date_iso ≤ b.date_iso) mergedRows).map
              (fun r => r.total_orders.toNumber)) 7)).map (fun r => r.total_orders)
      = (jsSort (fun a b : MetricsRow => a.date_iso ≤ b.date_iso) mergedRows).map
          (fun r => r.total_orders) := by
    intro p25 p75
    unfold enrichRows
    exact map_zipWith_eq
      (fun r ma =>
        ({ date_iso := r.date_iso, total_orders := r.total_orders,
           temperature_c := r.temperature_c, rainfall_mm := r.rainfall_mm,
           humidity_pct := r.humidity_pct, imputed_weather := r.imputed_weather,
           is_rainy := rowIsRainy (options.rainThresholdMm.getD 1) r,
           day_of_week := dayOfWeek r.date_iso,
           temp_category := tempCategory p25 p75 r.temperature_c,
           moving_avg_7 := ma } : EnrichedRow))
      (fun r => r.total_orders) (fun r => r.total_orders) (fun a b => rfl) _ _ hmavlen
  have hfins : (((jsSort (fun a b : MetricsRow => a.date_iso ≤ b.date_iso) mergedRows).map
      (fun r => r.total_orders)).filterMap JsVal.finPart).isEmpty = false := by
    obtain ⟨a, as, hcons⟩ := List.exists_cons_of_ne_nil hsrtne
    have ha : a ∈ jsSort (fun a b : MetricsRow => a.date_iso ≤ b.date_iso) mergedRows := by
      rw [hcons]
      exact List.mem_cons_self a as
    obtain ⟨q0, hq0⟩ := finPart_of_isFiniteV _ (hfin a ((mem_jsSort _ _ _).mp ha))
    rw [hcons, List.map_cons, List.filterMap_cons, hq0]
    rfl
  have hsafe : ∀ (p25 p75 : Option ℚ),
      safeAverage ((((enrichRows (options.rainThresholdMm.getD 1) p25 p75
          (jsSort (fun a b : MetricsRow => a.date_iso ≤ b.date_iso) mergedRows)
          (computeMovingAverage
            ((jsSort (fun a b : MetricsRow => a.date_iso ≤ b.date_iso) mergedRows).map
              (fun r => r.total_orders.toNumber)) 7)).filter
            (fun r => ¬r.is_rainy))).map (fun r => r.total_orders))
      = some ((((jsSort (fun a b : MetricsRow => a.date_iso ≤ b.date_iso) mergedRows).map
            (fun r => r.total_orders)).filterMap JsVal.finPart).sum
          / (((((jsSort (fun a b : MetricsRow => a.date_iso ≤ b.date_iso) mergedRows).map
            (fun r => r.total_orders)).filterMap JsVal.finPart).length : ℚ))) := by
    intro p25 p75
    rw [hfilNR p25 p75 _, hmap p25 p75]
    simp only [safeAverage]
    rw [if_neg (by rw [hfins]; exact Bool.false_ne_true)]
  simp only [calculateMetricsAndCharts]
  rw [if_neg hcond]
  simp only [Except.map, Except.ok.injEq, Prod.mk.injEq]
  rw [hfilR, hsafe]
  have hnil : safeAverage (List.map (fun r : EnrichedRow => r.total_orders)
      ([] : List EnrichedRow)) = none := rfl
  rw [hnil]
  simp

/-- C6 witness: a single non-rainy day with 5 orders — the metrics succeed
with `rainyDayAvg = null`, `percentIncrease = null`, `nonRainyDayAvg`
defined. -/
theorem c6_division_by_zero_safety_witness :
    (calculateMetricsAndCharts (fun _ => 0)
        [({ date_iso := 0, total_orders := .num 5, temperature_c := .num 20,
            rainfall_mm := .num 0, humidity_pct := .null,
            imputed_weather := false } : MetricsRow)] {}).map
        (fun out => (out.kpis.rainyDayAvg, out.kpis.percentIncrease,
          out.kpis.nonRainyDayAvg.isSome)) = .ok (none, none, true) :=
  c6_division_by_zero_safety (fun _ => 0)
    [({ date_iso := 0, total_orders := .num 5, temperature_c := .num 20,
        rainfall_mm := .num 0, humidity_pct := .null,
        imputed_weather := false } : MetricsRow)] {}
    (List.cons_ne_nil _ _)
    (by intro r hr; rw [List.mem_singleton] at hr; subst hr; rfl)
    (by
      intro r hr
      rw [List.mem_singleton] at hr
      subst hr
      norm_num [rowIsRainy, JsVal.toNumber])

theorem map_filter_zipWith {α β γ δ : Type} (f : α → β → γ) (p : γ → Bool) (q : α → Bool)
    (g : γ → δ) (h : α → δ)
    (hpq : ∀ a b, p (f a b) = q a) (hgh : ∀ a b, g (f a b) = h a) :
    ∀ (l₁ : List α) (l₂ : List β), l₂.length = l₁.length →
      ((List.zipWith f l₁ l₂).filter p).map g = (l₁.filter q).map h := by
  intro l₁
  induction l₁ with
  | nil => intro l₂ _; simp
  | cons a as ih =>
    intro l₂ hlen
    cases l₂ with
    | nil => simp at hlen
    | cons b bs =>
      rw [List.zipWith_cons_cons]
      by_cases hq : q a = true
      · rw [List.filter_cons_of_pos (by rw [hpq]; exact hq),
          List.filter_cons_of_pos hq, List.map_cons, List.map_cons, hgh,
          ih bs (by simpa using hlen)]
      · rw [List.filter_cons_of_neg (by rw [hpq]; exact hq),
          List.filter_cons_of_neg hq, ih bs (by simpa using hlen)]

theorem safeAverage_perm {l₁ l₂ : List JsVal} (hp : l₁.Perm l₂) :
    safeAverage l₁ = safeAverage l₂ := by
  have hfm : (l₁.filterMap JsVal.finPart).Perm (l₂.filterMap JsVal.finPart) := hp.filterMap _
  simp only [safeAverage]
  exact if_congr
    (by rw [List.isEmpty_iff_length_eq_zero, List.isEmpty_iff_length_eq_zero, hfm.length_eq])
    rfl (by rw [hfm.sum_eq, hfm.length_eq])

/-- C10: a row whose `rainfall_mm` is `NaN` or missing is always classified
non-rainy; a `null` rainfall is coerced to `0`, so it is rainy exactly when
the threshold is below `0` — in particular non-rainy at every non-negative
threshold; and on a successful run the non-rainy rows are exactly the ones
counted and averaged in the non-rainy bucket. -/
theorem c10_nonfinite_rainfall (thr : ℚ) (r : MetricsRow) (sqrtFn : ℚ → ℚ)
    (mergedRows : List MetricsRow) (options : MetricsOptions)
    (hne : mergedRows ≠ []) :
    ((r.rainfall_mm = .nan ∨ r.rainfall_mm = .undef) → rowIsRainy thr r = false)
    ∧ (r.rainfall_mm = .null → rowIsRainy thr r = decide (thr < 0))
    ∧ (r.rainfall_mm = .null → 0 ≤ thr → rowIsRainy thr r = false)
    ∧ (calculateMetricsAndCharts sqrtFn mergedRows options).map
        (fun out => (out.kpis.nonRainyDays, out.kpis.nonRainyDayAvg))
      = .ok (mergedRows.countP
            (fun x => ¬rowIsRainy (options.rainThresholdMm.getD 1) x),
          (safeAverage ((mergedRows.filter
              (fun x => ¬rowIsRainy (options.rainThresholdMm.getD 1) x)).map
            (fun x => x.total_orders))).map round2) := by
  refine ⟨?_, ?_, ?_, ?_⟩
  · intro h
    rcases h with h | h <;> simp [rowIsRainy, h, JsVal.toNumber]
  · intro h
    simp [rowIsRainy, h, JsVal.toNumber]
  · intro h h0
    simp only [rowIsRainy, h, JsVal.toNumber, decide_eq_false_iff_not]
    exact not_lt.mpr h0
  · have hcond : ¬(mergedRows.isEmpty = true) := by
      simp only [List.isEmpty_iff]
      exact hne
    have hsrtlen : (jsSort (fun a b : MetricsRow => a.date_iso ≤ b.date_iso) mergedRows).length
        = mergedRows.length := (jsSort_perm _ mergedRows).length_eq
    have hmavlen : (computeMovingAverage
          ((jsSort (fun a b : MetricsRow => a.date_iso ≤ b.date_iso) mergedRows).map
            (fun r => r.total_orders.toNumber)) 7).length
        = (jsSort (fun a b : MetricsRow => a.date_iso ≤ b.date_iso) mergedRows).length := by
      rw [computeMovingAverage_length, List.length_map]
    have hmf : ∀ (p25 p75 : Option ℚ),
        ((enrichRows (options.rainThresholdMm.getD 1) p25 p75
            (jsSort (fun a b : MetricsRow => a.date_iso ≤ b.date_iso) mergedRows)
            (computeMovingAverage
              ((jsSort (fun a b : MetricsRow => a.date_iso ≤ b.date_iso) mergedRows).map
                (fun r => r.total_orders.toNumber)) 7)).filter
          (fun e => ¬e.is_rainy)).map (fun e => e.total_orders)
        = ((jsSort (fun a b : MetricsRow => a.date_iso ≤ b.date_iso) mergedRows).filter
            (fun x => ¬rowIsRainy (options.rainThresholdMm.getD 1) x)).map
          (fun x => x.total_orders) := by
      intro p25 p75
      unfold enrichRows
      exact map_filter_zipWith
        (fun r ma =>
          ({ date_iso := r.date_iso, total_orders := r.total_orders,
             temperature_c := r.temperature_c, rainfall_mm := r.rainfall_mm,
             humidity_pct := r.humidity_pct, imputed_weather := r.imputed_weather,
             is_rainy := rowIsRainy (options.rainThresholdMm.getD 1) r,
             day_of_week := dayOfWeek r.date_iso,
             temp_category := tempCategory p25 p75 r.temperature_c,
             moving_avg_7 := ma } : EnrichedRow))
        (fun e => ¬e.is_rainy)
        (fun x => ¬rowIsRainy (options.rainThresholdMm.getD 1) x)
        (fun e => e.total_orders) (fun x => x.total_orders)
        (fun a b => rfl) (fun a b => rfl) _ _ hmavlen
    have hperm : (((jsSort (fun a b : MetricsRow => a.date_iso ≤ b.date_iso) mergedRows).filter
          (fun x => ¬rowIsRainy (options.rainThresholdMm.getD 1) x)).map
        (fun x => x.total_orders)).Perm
        ((mergedRows.filter (fun x => ¬rowIsRainy (options.rainThresholdMm.getD 1) x)).map
          (fun x => x.total_orders)) :=
      List.Perm.map _ (List.Perm.filter _ (jsSort_perm _ mergedRows))
    simp only [calculateMetricsAndCharts]
    rw [if_neg hcond]
    simp only [Except.map, Except.ok.injEq, Prod.mk.injEq]
    constructor
    · rw [hmf, List.length_map, ← List.countP_eq_length_filter,
        (jsSort_perm (fun a b : MetricsRow => a.date_iso ≤ b.date_iso) mergedRows).countP_eq
          (fun x => ¬rowIsRainy (options.rainThresholdMm.getD 1) x)]
    · rw [hmf, safeAverage_perm hperm]

/-- C10 witness: a single row with `NaN` rainfall is non-rainy at the default
threshold `1`, and the run's non-rainy bucket counts and averages exactly the
non-rainy rows. -/
theorem c10_nonfinite_rainfall_witness :
    rowIsRainy 1 ⟨0, .num 5, .num 20, .nan, .null, false⟩ = false
    ∧ (calculateMetricsAndCharts (fun _ => 0)
        [(⟨0, .num 5, .num 20, .nan, .null, false⟩ : MetricsRow)] {}).map
        (fun out => (out.kpis.nonRainyDays, out.kpis.nonRainyDayAvg))
      = .ok (([(⟨0, .num 5, .num 20, .nan, .null, false⟩ : MetricsRow)]).countP
            (fun x => ¬rowIsRainy (({} : MetricsOptions).rainThresholdMm.getD 1) x),
          (safeAverage (([(⟨0, .num 5, .num 20, .nan, .null, false⟩ : MetricsRow)].filter
              (fun x => ¬rowIsRainy (({} : MetricsOptions).rainThresholdMm.getD 1) x)).map
            (fun x => x.total_orders))).map round2) := by
  have h := c10_nonfinite_rainfall 1 ⟨0, .num 5, .num 20, .nan, .null, false⟩ (fun _ => 0)
    [(⟨0, .num 5, .num 20, .nan, .null, false⟩ : MetricsRow)] {} (List.cons_ne_nil _ _)
  exact ⟨h.1 (Or.inl rfl), h.2.2.2⟩

/-! ### Sortedness and key-uniqueness facts for the merge anchor -/

theorem pairwise_insertLe {α : Type} (le : α → α → Bool)
    (htot : ∀ a b, le a b = false → le b a = true)
    (htrans : ∀ a b c, le a b = true → le b c = true → le a c = true) :
    ∀ (l : List α) (x : α), l.Pairwise (fun a b => le a b = true) →
      (insertLe le x l).Pairwise (fun a b => le a b = true)
  | [], x, _ => by simp [insertLe]
  | y :: ys, x, h => by
    cases h with
    | cons hy hys =>
      unfold insertLe
      by_cases hxy : le x y = true
      · rw [if_pos hxy]
        refine List.Pairwise.cons ?_ (List.Pairwise.cons hy hys)
        intro z hz
        rcases List.mem_cons.mp hz with rfl | hz2
        · exact hxy
        · exact htrans x y z hxy (hy z hz2)
      · rw [if_neg hxy]
        refine List.Pairwise.cons ?_ (pairwise_insertLe le htot htrans ys x hys)
        intro z hz
        rcases List.mem_cons.mp ((insertLe_perm le x ys).mem_iff.mp hz) with rfl | hz2
        · exact htot _ y (by simpa using hxy)
        · exact hy z hz2

theorem pairwise_jsSort {α : Type} (le : α → α → Bool)
    (htot : ∀ a b, le a b = false → le b a = true)
    (htrans : ∀ a b c, le a b = true → le b c = true → le a c = true) :
    ∀ l : List α, (jsSort le l).Pairwise (fun a b => le a b = true)
  | [] => List.Pairwise.nil
  | x :: xs =>
    pairwise_insertLe le htot htrans (jsSort le xs) x (pairwise_jsSort le htot htrans xs)

theorem jsSort_of_pairwise {α : Type} (le : α → α → Bool) :
    ∀ l : List α, l.Pairwise (fun a b => le a b = true) → jsSort le l = l
  | [], _ => rfl
  | x :: xs, h => by
    cases h with
    | cons hx hxs =>
      show insertLe le x (jsSort le xs) = x :: xs
      rw [jsSort_of_pairwise le xs hxs]
      cases xs with
      | nil => rfl
      | cons y ys =>
        unfold insertLe
        rw [if_pos (hx y (List.mem_cons_self y ys))]

theorem int_keys_sort_pairwise (keys : List ℤ) (hk : keys.Nodup) :
    (jsSort (fun a b => a ≤ b) keys).Pairwise (· < ·) := by
  have hsorted := pairwise_jsSort (fun a b : ℤ => a ≤ b)
    (by intro a b hab; simp at hab ⊢; omega)
    (by intro a b c h1 h2; simp at h1 h2 ⊢; omega) keys
  have hnd : (jsSort (fun a b : ℤ => a ≤ b) keys).Nodup :=
    ((jsSort_perm _ keys).nodup_iff).mpr hk
  exact (hsorted.and hnd).imp (fun hab => lt_of_le_of_ne (by simpa using hab.1) hab.2)

theorem lookup_isSome_of_mem_keys {β : Type} (m : List (ℤ × β)) (d : ℤ)
    (hd : d ∈ m.map Prod.fst) : (m.lookup d).isSome = true := by
  induction m with
  | nil => simp at hd
  | cons p es ih =>
    obtain ⟨k, v⟩ := p
    simp only [List.map_cons, List.mem_cons] at hd
    by_cases h : d = k
    · simp [List.lookup, h]
    · have hd' : d ∈ es.map Prod.fst := by
        rcases hd with h1 | h1
        · exact absurd h1 h
        · exact h1
      simp only [List.lookup]
      rw [show (d == k) = false from beq_eq_false_iff_ne.mpr h]
      exact ih hd'

theorem nodup_alistAddQ (m : List (ℤ × ℚ)) (d : ℤ) (q : ℚ)
    (hm : (m.map Prod.fst).Nodup) : ((alistAddQ m d q).map Prod.fst).Nodup := by
  unfold alistAddQ
  by_cases h : (m.lookup d).isSome = true
  · rw [if_pos h]
    have hkeys : (m.map (fun p => if p.1 = d then (p.1, p.2 + q) else p)).map Prod.fst
        = m.map Prod.fst := by
      rw [List.map_map]
      apply List.map_congr_left
      intro p hp
      by_cases hpd : p.1 = d
      · simp [Function.comp, hpd]
      · simp [Function.comp, hpd]
    rw [hkeys]
    exact hm
  · rw [if_neg h, List.map_append, List.nodup_append]
    refine ⟨hm, List.nodup_singleton _, ?_⟩
    intro a ha had
    rw [List.map_singleton, List.mem_singleton] at had
    subst had
    exact h (lookup_isSome_of_mem_keys m a ha)

theorem nodup_keys_ordersFold : ∀ (l : List OrderRowM) (m : List (ℤ × ℚ)),
    (m.map Prod.fst).Nodup →
    ((l.foldl
        (fun m r =>
          match r.date_iso with
          | none => m
          | some d =>
            match JsVal.toNumber r.total_orders with
            | .fin q => alistAddQ m d q
            | _ => m)
        m).map Prod.fst).Nodup
  | [], m, hm => hm
  | r :: rest, m, hm => by
    rw [List.foldl_cons]
    apply nodup_keys_ordersFold rest
    cases hd : r.date_iso with
    | none => simpa [hd] using hm
    | some d =>
      cases ht : JsVal.toNumber r.total_orders with
      | fin q =>
        simp only [hd, ht]
        exact nodup_alistAddQ m d q hm
      | nan => simpa [hd, ht] using hm
      | inf => simpa [hd, ht] using hm
      | ninf => simpa [hd, ht] using hm

theorem aggregateOrders_keys_pairwise (orderRows : List OrderRowM) :
    ((aggregateOrdersDaily orderRows).map Prod.fst).Pairwise (· < ·) := by
  simp only [aggregateOrdersDaily, List.map_map]
  rw [List.pairwise_map]
  exact int_keys_sort_pairwise _ (nodup_keys_ordersFold orderRows [] (by simp))

theorem mergeLoop_dates_sublist (m : List (ℤ × DailyWeather)) (g : ℕ) :
    ∀ l : List (ℤ × ℚ),
      ((mergeLoop m g l).1.map (fun r => r.date_iso)).Sublist (l.map Prod.fst)
  | [] => by simp [mergeLoop]
  | o :: rest => by
    rcases hf : findNearestWeather o.1 m g with _ | ⟨w, imp⟩
    · simp only [mergeLoop, hf]
      exact (mergeLoop_dates_sublist m g rest).cons o.1
    · simp only [mergeLoop, hf, List.map_cons]
      exact (mergeLoop_dates_sublist m g rest).cons₂ _

/-- C1: anchor invariant of the merge — every output row carries the date
and the summed order aggregate of an order-aggregate entry (so no row exists
for a date absent from the aggregated orders); every aggregate date that
finds weather within the gap yields a row; and the output dates are strictly
increasing, hence exactly one row per surviving aggregate date, sorted
ascending by `date_iso`. -/
theorem c1_merge_anchor_invariant (orderRows : List OrderRowM) (weatherRows : List WeatherRowM)
    (options : MergeOptions) (rows : List MergedRecord) (ws : List String)
    (hok : mergeOrdersWithWeather orderRows weatherRows options = .ok (rows, ws)) :
    (∀ r ∈ rows, ∃ o ∈ aggregateOrdersDaily orderRows,
        o.1 = r.date_iso ∧ o.2 = r.total_orders)
    ∧ (∀ o ∈ aggregateOrdersDaily orderRows,
        (findNearestWeather o.1 (aggregateWeatherDaily weatherRows)
          (options.maxGapDays.getD 3)).isSome = true →
        ∃ r ∈ rows, r.date_iso = o.1)
    ∧ (rows.map (fun r => r.date_iso)).Pairwise (· < ·) := by
  refine ⟨?_, ?_, ?_⟩
  · intro r hr
    obtain ⟨o, ho, w, imp, hf, rfl⟩ :=
      (merge_ok_rows orderRows weatherRows options rows ws hok r).mp hr
    exact ⟨o, ho, rfl, rfl⟩
  · intro o ho hsome
    rw [Option.isSome_iff_exists] at hsome
    obtain ⟨wi, hwi⟩ := hsome
    refine ⟨mkMergedRecord o wi.1 wi.2, ?_, rfl⟩
    exact (merge_ok_rows orderRows weatherRows options rows ws hok _).mpr
      ⟨o, ho, wi.1, wi.2, hwi, rfl⟩
  · unfold mergeOrdersWithWeather at hok
    by_cases hempty : (jsSort (fun a b => a.date_iso ≤ b.date_iso)
        (mergeLoop (aggregateWeatherDaily weatherRows) (options.maxGapDays.getD 3)
          (aggregateOrdersDaily orderRows)).1).isEmpty
    · rw [if_pos hempty] at hok
      exact absurd hok (by simp)
    · rw [if_neg hempty] at hok
      have hrows : rows = jsSort (fun a b => a.date_iso ≤ b.date_iso)
          (mergeLoop (aggregateWeatherDaily weatherRows) (options.maxGapDays.getD 3)
            (aggregateOrdersDaily orderRows)).1 := by
        have h2 := hok
        simp only [Except.ok.injEq, Prod.mk.injEq] at h2
        exact h2.1.symm
      have hpre : ((mergeLoop (aggregateWeatherDaily weatherRows) (options.maxGapDays.getD 3)
          (aggregateOrdersDaily orderRows)).1.map (fun r => r.date_iso)).Pairwise (· < ·) :=
        (aggregateOrders_keys_pairwise orderRows).sublist
          (mergeLoop_dates_sublist (aggregateWeatherDaily weatherRows)
            (options.maxGapDays.getD 3) (aggregateOrdersDaily orderRows))
      have hpw : ((mergeLoop (aggregateWeatherDaily weatherRows) (options.maxGapDays.getD 3)
          (aggregateOrdersDaily orderRows)).1).Pairwise
            (fun a b => decide (a.date_iso ≤ b.date_iso) = true) :=
        (List.pairwise_map.mp hpre).imp (fun h => decide_eq_true (le_of_lt h))
      rw [hrows, jsSort_of_pairwise _ _ hpw]
      exact hpre

/-- C1 witness: one order row on day 10 and exact weather on day 10 — the
single merged row carries the aggregate `(10, 5)`, the aggregate date with
weather yields a row, and the output dates are strictly increasing. -/
theorem c1_merge_anchor_invariant_witness :
    (∀ r ∈ [(⟨10, 5, 7, 2, none, false⟩ : MergedRecord)],
        ∃ o ∈ aggregateOrdersDaily [(⟨some 10, .num 5⟩ : OrderRowM)],
          o.1 = r.date_iso ∧ o.2 = r.total_orders)
    ∧ (∀ o ∈ aggregateOrdersDaily [(⟨some 10, .num 5⟩ : OrderRowM)],
        (findNearestWeather o.1
          (aggregateWeatherDaily [(⟨some 10, .num 7, .num 2, .null⟩ : WeatherRowM)])
          (({} : MergeOptions).maxGapDays.getD 3)).isSome = true →
        ∃ r ∈ [(⟨10, 5, 7, 2, none, false⟩ : MergedRecord)], r.date_iso = o.1)
    ∧ (([(⟨10, 5, 7, 2, none, false⟩ : MergedRecord)]).map
        (fun r => r.date_iso)).Pairwise (· < ·) := by
  have hok : mergeOrdersWithWeather [(⟨some 10, .num 5⟩ : OrderRowM)]
      [(⟨some 10, .num 7, .num 2, .null⟩ : WeatherRowM)] {} =
      .ok ([(⟨10, 5, 7, 2, none, false⟩ : MergedRecord)], []) := by
    simp +decide [mergeOrdersWithWeather, aggregateOrdersDaily, aggregateWeatherDaily, alistAddQ,
      alistUpdW, wBucketStep, JsVal.toNumber, jsSort, insertLe, mergeLoop, findNearestWeather,
      findNearestGo, List.lookup, mkMergedRecord]
  exact c1_merge_anchor_invariant [(⟨some 10, .num 5⟩ : OrderRowM)]
    [(⟨some 10, .num 7, .num 2, .null⟩ : WeatherRowM)] {}
    [(⟨10, 5, 7, 2, none, false⟩ : MergedRecord)] [] hok
